import Mathlib

/-! # GoScriptServer: the volume plugin and the request dispatcher

A shallow embedding of `plugins/volume/volume.go`, of the drawing and the command loop of
`plugins/volume/volume_volumebar.go`, of `loadSettings` in `plugins/volume/settings.go`, of
`processRequest` in `script_server.go` and of the parts of `settings/settings.go`,
`commands/commands.go` and `utils/utils.go` they call, followed by theorems about them.

Conventions of the embedding

* Go `int` is embedded as `Int`. `calcNewVolume`, and `exec` on top of it, compute over the
  unbounded integers, which is exact as long as no intermediate value leaves the 64-bit range.
  `calcNewVolume64` is the same function with two's-complement wrapping,
  `calcNewVolume64_eq_of_fits` states where both agree, and what depends on the range is
  stated on `calcNewVolume64`.
* The pixel positions of the volume bar are products of 64-bit `int`s converted to `float64`:
  `drawBarPart` wraps the product (`wrap64`) and rounds it as the conversion does
  (`float64OfInt`).
* The receiver `vp *volumePlugin` and the package variable `vs` are passed explicitly;
  a Go method that mutates them returns the new value.
* What the operating system answers (command output, settings file, request parameters) is
  an input, collected in `Env`. Commands handed to the shell and commands pushed to the
  volume bar are recorded in `World.ran` and `World.pushed`.
* The window loop, the goroutine of its settle delay and its hide timer are events that
  happen one at a time (`loopStep`); durations are not modelled.
* Log output (`log.Printf`, `utils.PrintError`) is not modelled.
-/

namespace utils

/-- Go `utils.Cond`: a ternary operator without short-circuiting. -/
def Cond {T : Type} (isTrue : Bool) (ifTrue ifFalse : T) : T :=
  if isTrue then ifTrue else ifFalse

/-- Go `strings.TrimRight(s, "\n")`: drop every trailing line feed. -/
def TrimRightNewlines (s : String) : String :=
  String.mk (s.data.reverse.dropWhile (fun c => c == Char.ofNat 10)).reverse

/-- Go `utils.ExecCommandRaw`, over the answer `out` of `exec.Command(...).CombinedOutput()`:
the output without trailing line feeds, and the error (its text) if there is one. -/
def ExecCommandRaw (out : String × Option String) : String × Option String :=
  (TrimRightNewlines out.1, out.2)

/-- Go `utils.ExecCommand`, over the answer `out` of `CombinedOutput()`: a friendly string of
the execution status, and whether the command succeeded. -/
def ExecCommand (commandName : String) (out : String × Option String) : String × Bool :=
  match ExecCommandRaw out with
  | (outputString, some err) =>
    ("Failed to execute " ++ commandName ++ " (" ++ err ++ "): " ++ outputString, false)
  | (outputString, none) => (commandName ++ " executed: " ++ outputString, true)

end utils

namespace strconv

/-- The two errors of `strconv.Atoi`. -/
inductive NumError where
  | invalid
  | range
  deriving DecidableEq, Repr

/-- Text of `err.Error()` for an error of `strconv.Atoi` on input `s`
(`s` is quoted as Go quotes a string of printable ASCII characters). -/
def NumError.Error (s : String) : NumError → String
  | .invalid => "strconv.Atoi: parsing \"" ++ s ++ "\": invalid syntax"
  | .range => "strconv.Atoi: parsing \"" ++ s ++ "\": value out of range"

/-- An ASCII decimal digit, `0` to `9`. -/
def isDigit (c : Char) : Bool := 48 ≤ c.toNat && c.toNat ≤ 57

/-- Value of a string of decimal digits, most significant first. -/
def digitsValue (cs : List Char) : Int :=
  cs.foldl (fun n ch => n * 10 + ((ch.toNat : Int) - 48)) 0

/-- The digit loop of `strconv.ParseUint(s, 10, 64)` from the value `n` read so far: a
character that is not a decimal digit is a syntax error, a value above `2^64 - 1` a range
error (reported at the digit where it happens, with the value `2^64 - 1`). -/
def parseUintLoop : List Char → Nat → Nat × Option NumError
  | [], n => (n, none)
  | c :: cs, n =>
    if !isDigit c then (0, some .invalid)
    else if n * 10 + (c.toNat - 48) > 2 ^ 64 - 1 then (2 ^ 64 - 1, some .range)
    else parseUintLoop cs (n * 10 + (c.toNat - 48))

/-- Go `strconv.Atoi` (`ParseInt(s, 10, 0)`; the fast path for short strings computes the same):
an optional sign followed by one or more decimal digits, in the range of a 64-bit `int`.
Returns the value and the error; on a range error the value is the nearest representable
one, on a syntax error it is `0`. -/
def Atoi (s : String) : Int × Option NumError :=
  match s.data with
  | [] => (0, some .invalid)
  | c :: rest =>
    let neg := c == '-'
    let digits := if c = '+' ∨ c = '-' then rest else c :: rest
    if digits = [] then (0, some .invalid)
    else
      match parseUintLoop digits 0 with
      | (_, some .invalid) => (0, some .invalid)
      | (un, _) =>
        if !neg && un ≥ 2 ^ 63 then (2 ^ 63 - 1, some .range)
        else if neg && un > 2 ^ 63 then (-(2 ^ 63), some .range)
        else (if neg then -(un : Int) else (un : Int), none)

/-- Go `strconv.Itoa`: the decimal text of an `int`. -/
def Itoa (i : Int) : String := toString i

end strconv

namespace settings

/-- Go `settings.Get` over the loaded map `vars`: the value of `varName` in section
`sectionName`, or `defaultVal` when the section or the variable is missing. -/
def Get (vars : String → Option (String → Option String))
    (sectionName varName defaultVal : String) : String :=
  match vars sectionName with
  | none => defaultVal
  | some getSection =>
    match getSection varName with
    | some ret => ret
    | none => defaultVal

end settings

namespace commands

/-- Go `commands.Get` over the map `items`: the command function registered under `name`,
`none` when `ok` is false. -/
def Get {CommandFunc : Type} (items : String → Option CommandFunc) (name : String) :
    Option CommandFunc :=
  items name

end commands

namespace script_server

/-- Go `processRequest` of package `main`, for the secret key `os.Args[2]` and the registered
commands `items`. A command function reads the query values and may change the state `σ` of
its plugin; it returns the text for the caller. -/
def processRequest {σ : Type} (secretKey : String)
    (items : String → Option ((String → Option String) → σ → String × σ))
    (getQueryVal : String → Option String) (st : σ) : String × σ :=
  -- Check for SecretKey and validate
  match getQueryVal "SecretKey" with
  | none => ("Invalid secret key", st)
  | some val =>
    if val ≠ secretKey then ("Invalid secret key", st)
    else
      -- Handle command key
      match getQueryVal "Command" with
      | none => ("Missing Command", st)
      | some command =>
        match commands.Get items command with
        | none => ("Invalid Command", st)
        | some cmdFunc => cmdFunc getQueryVal st

/-- A registry with one command, `Echo`, that returns the query value `Text` and counts its
calls. -/
def exampleItems : String → Option ((String → Option String) → Nat → String × Nat) :=
  fun name =>
    if name = "Echo" then some (fun getQueryVal n => ((getQueryVal "Text").getD "", n + 1))
    else none

/-- A request with the given secret key, command and text. -/
def exampleQuery (key command : Option String) (text : String) : String → Option String :=
  fun varName =>
    if varName = "SecretKey" then key
    else if varName = "Command" then command
    else if varName = "Text" then some text
    else none

end script_server

namespace plugin_volume

/-- Go `color.RGBA`, each channel a byte. -/
structure RGBA where
  R : Nat
  G : Nat
  B : Nat
  A : Nat
  deriving DecidableEq, Repr

/-- Volume settings loaded from the settings file (`volumeSettings`). -/
structure volumeSettings where
  NormalVolumeMax : Int
  ScreenWidth : Int
  RunExtraXWinCode : Int
  OverMaxVolumeMax : Int
  DefaultVolume : Int
  BufferSize : Int
  VolumeBarTop : Int
  VolumeBarLeftOffset : Int
  PercentPixelWidth : Int
  VolumeBarHeight : Int
  VolumeBarTimeout : Int
  TextSize : Int
  GetCurVolumeCommand : String
  SetCurVolumeCommand : String
  FontPath : String
  BGColor : RGBA
  VolColor : RGBA
  OverMaxColor : RGBA
  TextColor : RGBA
  deriving DecidableEq, Repr

/-- The zero value of `volumeSettings`: what `var vs volumeSettings` holds before
`loadSettings` runs. -/
def volumeSettings.zero : volumeSettings :=
  { NormalVolumeMax := 0, ScreenWidth := 0, RunExtraXWinCode := 0, OverMaxVolumeMax := 0,
    DefaultVolume := 0, BufferSize := 0, VolumeBarTop := 0, VolumeBarLeftOffset := 0,
    PercentPixelWidth := 0, VolumeBarHeight := 0, VolumeBarTimeout := 0, TextSize := 0,
    GetCurVolumeCommand := "", SetCurVolumeCommand := "", FontPath := "",
    BGColor := ⟨0, 0, 0, 0⟩, VolColor := ⟨0, 0, 0, 0⟩, OverMaxColor := ⟨0, 0, 0, 0⟩,
    TextColor := ⟨0, 0, 0, 0⟩ }

/-- The mutable fields of `volumePlugin` (the compiled regular expression and the
`runIndividually` channel are not state of the computation). -/
structure volumePlugin where
  normalBuffer : Int
  hasInitialized : Bool
  currentVolume : Int
  deriving DecidableEq, Repr

/-- The value of `globalVP` at process start. -/
def globalVP : volumePlugin :=
  { normalBuffer := 0, hasInitialized := false, currentVolume := 0 }

/-- Go `volumeBarCommand`. -/
inductive volumeBarCommand where
  | vbCommandInitWindowAfterSettings
  | vbCommandUpdateVolume
  | vbCommandCloseWindow
  deriving DecidableEq, Repr

/-- What the surroundings of one call of `exec` answer. -/
structure Env where
  /-- The request: `getQueryVal(varName)`, `none` when `ok` is false. -/
  getQueryVal : String → Option String
  /-- The map `settings.vars`. -/
  vars : String → Option (String → Option String)
  /-- The answer of `exec.Command(command, params...).CombinedOutput()` to the command run
  after `n` earlier ones: its output and, when it failed, the text of the error. -/
  CombinedOutput : Nat → String → List String → String × Option String

/-- The package state: settings, plugin, and the record of what was sent out. -/
structure World where
  vs : volumeSettings
  vp : volumePlugin
  /-- Commands handed to `utils.ExecCommandRaw`, oldest first. -/
  ran : List (String × List String)
  /-- Commands pushed to `globalVb.commands`, oldest first. -/
  pushed : List volumeBarCommand

/-- Run `command params...` through the shell of `env` and record it. -/
def World.run (env : Env) (w : World) (command : String) (params : List String) :
    (String × Option String) × World :=
  (env.CombinedOutput w.ran.length command params,
   { w with ran := w.ran ++ [(command, params)] })

/-- Go `globalVb.PushCommand`. -/
def World.PushCommand (w : World) (vbc : volumeBarCommand) : World :=
  { w with pushed := w.pushed ++ [vbc] }

/-- The pattern `^\d{1,3}$`: one to three decimal digits and nothing else. -/
def matchDigits13 (cs : List Char) : Bool :=
  1 ≤ cs.length && cs.length ≤ 3 && cs.all strconv.isDigit

/-- Go `newVolumeRegEx.FindStringSubmatch` for `^([+-]?)(\d{1,3})$`: the whole match and the
two groups, or the empty list when the string does not match. -/
def FindStringSubmatch (s : String) : List String :=
  match s.data with
  | '+' :: rest => if matchDigits13 rest then [s, "+", String.mk rest] else []
  | '-' :: rest => if matchDigits13 rest then [s, "-", String.mk rest] else []
  | cs => if matchDigits13 cs then [s, "", s] else []

/-- The step from `curVolume` to `newVolume` reaches or passes `NormalVolumeMax`
(the first `switch` of `calcNewVolume`). -/
def reachesNormalMax (vs : volumeSettings) (curVolume newVolume : Int) : Bool :=
  (curVolume < vs.NormalVolumeMax && newVolume ≥ vs.NormalVolumeMax) ||
  (curVolume > vs.NormalVolumeMax && newVolume ≤ vs.NormalVolumeMax)

/-- Go `calcNewVolume`: the new volume from a relative change, and the plugin with its
`normalBuffer` updated. -/
def calcNewVolume (vs : volumeSettings) (vp : volumePlugin) (direction stepSize : Int) :
    Int × volumePlugin :=
  -- 0 delta does nothing
  let curVolume := vp.currentVolume
  let delta := direction * stepSize
  if delta = 0 then (curVolume, vp)
  else
    -- Clear the normalBuffer and remember it for this function
    let remNormalBuffer := vp.normalBuffer
    let vp := { vp with normalBuffer := 0 }
    -- Make sure the direction does not go below 0 or above OverMaxVolumeMax
    if curVolume + delta < 0 then (0, vp)
    else if curVolume + delta > vs.OverMaxVolumeMax then (vs.OverMaxVolumeMax, vp)
    else
      let newVolume := curVolume + delta
      let remNormalBuffer :=
        if reachesNormalMax vs curVolume newVolume then (vs.BufferSize + 1) * direction
        else remNormalBuffer
      -- Return new volume if there is no normalBuffer or the direction differs
      if remNormalBuffer = 0 ∨ decide (direction > 0) ≠ decide (remNormalBuffer > 0) then
        (newVolume, vp)
      else
        -- Decrement the buffer (towards 0) until it reaches 0
        let vp := { vp with normalBuffer := remNormalBuffer - direction }
        if vp.normalBuffer = 0 then (newVolume, vp) else (vs.NormalVolumeMax, vp)

/-- Two's-complement wrapping of an integer to the range of a 64-bit `int`. -/
def wrap64 (x : Int) : Int := (x + 2 ^ 63) % 2 ^ 64 - 2 ^ 63

/-- The function `calcNewVolume` with the arithmetic of a 64-bit `int`: every sum, difference and product
wraps. -/
def calcNewVolume64 (vs : volumeSettings) (vp : volumePlugin) (direction stepSize : Int) :
    Int × volumePlugin :=
  let curVolume := vp.currentVolume
  let delta := wrap64 (direction * stepSize)
  if delta = 0 then (curVolume, vp)
  else
    let remNormalBuffer := vp.normalBuffer
    let vp := { vp with normalBuffer := 0 }
    if wrap64 (curVolume + delta) < 0 then (0, vp)
    else if wrap64 (curVolume + delta) > vs.OverMaxVolumeMax then (vs.OverMaxVolumeMax, vp)
    else
      let newVolume := wrap64 (curVolume + delta)
      let remNormalBuffer :=
        if reachesNormalMax vs curVolume newVolume then
          wrap64 (wrap64 (vs.BufferSize + 1) * direction)
        else remNormalBuffer
      if remNormalBuffer = 0 ∨ decide (direction > 0) ≠ decide (remNormalBuffer > 0) then
        (newVolume, vp)
      else
        let vp := { vp with normalBuffer := wrap64 (remNormalBuffer - direction) }
        if vp.normalBuffer = 0 then (newVolume, vp) else (vs.NormalVolumeMax, vp)

/-- Go `verifyVolumeString`: an absolute volume value, or the text of the error. -/
def verifyVolumeString (vs : volumeSettings) (volStr : String) : Except String Int :=
  if !matchDigits13 volStr.data then
    .error ("Volume string is not a 1-3 digit integer: " ++ volStr)
  else
    match strconv.Atoi volStr with
    | (_, some err) =>
      .error ("Volume string [" ++ volStr ++ "] convert failed: " ++ err.Error volStr)
    | (volInt, none) =>
      if volInt > vs.OverMaxVolumeMax then
        .error ("Volume [" ++ strconv.Itoa volInt ++ "] cannot be larger than "
          ++ strconv.Itoa vs.OverMaxVolumeMax)
      else .ok volInt

/-- The pattern `^[0-9a-fA-F]{8}$`. -/
def matchHex8 (cs : List Char) : Bool :=
  cs.length == 8 && cs.all (fun c =>
    strconv.isDigit c || (97 ≤ c.toNat && c.toNat ≤ 102) || (65 ≤ c.toNat && c.toNat ≤ 70))

/-- Value of one hexadecimal digit. -/
def hexDigitValue (c : Char) : Nat :=
  if strconv.isDigit c then c.toNat - 48
  else if 97 ≤ c.toNat then c.toNat - 87
  else c.toNat - 55

/-- Go `strconv.ParseUint(s, 16, 32)` on a string of hexadecimal digits. -/
def ParseUint16 (cs : List Char) : Nat :=
  cs.foldl (fun n c => n * 16 + hexDigitValue c) 0

/-- Go `fmt.Sprintf("%08x", n)` for `0 ≤ n < 2^32`: eight lower-case hexadecimal digits. -/
def Sprintf08x (n : Nat) : String :=
  String.mk ((List.range 8).reverse.map (fun i =>
    let d := n / 16 ^ i % 16
    if d < 10 then Char.ofNat (48 + d) else Char.ofNat (87 + d)))

/-- The `reflect.Int` case of the loop of `loadSettings`: the value of one integer setting. -/
def loadIntSetting (vars : String → Option (String → Option String)) (settingName : String)
    (theDefault : Int) (normalizeValFunc : Option (Int → Int)) : Int :=
  let settingVal := settings.Get vars "Volume" settingName ""
  let val :=
    match strconv.Atoi settingVal with
    | (newVal, none) => newVal
    | (_, some _) => theDefault
  match normalizeValFunc with
  | some f => f val
  | none => val

/-- The `reflect.String` case of the loop of `loadSettings`. -/
def loadStringSetting (vars : String → Option (String → Option String))
    (settingName theDefault : String) : String :=
  let settingVal := settings.Get vars "Volume" settingName ""
  if settingVal = "" then theDefault else settingVal

/-- The `reflect.Struct` case of the loop of `loadSettings`: one colour. -/
def loadColorSetting (vars : String → Option (String → Option String)) (settingName : String)
    (theDefault : Nat) : RGBA :=
  let settingVal := settings.Get vars "Volume" settingName ""
  let settingVal := if !matchHex8 settingVal.data then Sprintf08x theDefault else settingVal
  let myIntVal := ParseUint16 settingVal.data
  { R := (myIntVal >>> 24) &&& 0xFF, G := (myIntVal >>> 16) &&& 0xFF,
    B := (myIntVal >>> 8) &&& 0xFF, A := myIntVal &&& 0xFF }

/-- Go `loadSettings`: the settings are loaded in the order of `settingsToLoad`; a normaliser
reads the fields of `vs` loaded before it. The product in the normaliser of `ScreenWidth` is a
product of 64-bit `int`s, which wraps. -/
def loadSettings (vars : String → Option (String → Option String)) (vs : volumeSettings) :
    volumeSettings :=
  let vs := { vs with
    NormalVolumeMax := loadIntSetting vars "NormalVolumeMax" 100 (some fun v => max v 1) }
  let vs := { vs with
    BufferSize := loadIntSetting vars "BufferSize" 5 (some fun v => max v 0) }
  let vs := { vs with
    OverMaxVolumeMax :=
      loadIntSetting vars "OverMaxVolumeMax" 200 (some fun v => max v vs.NormalVolumeMax) }
  let vs := { vs with
    DefaultVolume :=
      loadIntSetting vars "DefaultVolume" 50 (some fun v => max 0 (min v vs.OverMaxVolumeMax)) }
  let vs := { vs with
    VolumeBarHeight := loadIntSetting vars "VolumeBarHeight" 80 (some fun v => max v 1) }
  let vs := { vs with VolumeBarTop := loadIntSetting vars "VolumeBarTop" 30 none }
  let vs := { vs with
    VolumeBarTimeout := loadIntSetting vars "VolumeBarTimeout" 2000 (some fun v => max v 1) }
  let vs := { vs with
    VolumeBarLeftOffset := loadIntSetting vars "VolumeBarLeftOffset" 0 none }
  let vs := { vs with
    PercentPixelWidth := loadIntSetting vars "PercentPixelWidth" 6 (some fun v => max v 1) }
  let vs := { vs with
    ScreenWidth :=
      loadIntSetting vars "ScreenWidth" 1920
        (some fun v => max v (wrap64 (vs.OverMaxVolumeMax * vs.PercentPixelWidth))) }
  let vs := { vs with TextSize := loadIntSetting vars "TextSize" 64 (some fun v => max v 1) }
  let vs := { vs with
    RunExtraXWinCode := loadIntSetting vars "RunExtraXWinCode" 1 (some fun v => min v 1) }
  let vs := { vs with BGColor := loadColorSetting vars "BGColor" 0x00000034 }
  let vs := { vs with VolColor := loadColorSetting vars "VolColor" 0x0000FF34 }
  let vs := { vs with OverMaxColor := loadColorSetting vars "OverMaxColor" 0xFF000034 }
  let vs := { vs with TextColor := loadColorSetting vars "TextColor" 0xFFFFFFFF }
  let vs := { vs with
    GetCurVolumeCommand :=
      loadStringSetting vars "GetCurVolumeCommand"
        "pactl get-sink-volume @DEFAULT_SINK@ | grep -oP '[0-9]+(?=%)' | head -1" }
  let vs := { vs with
    SetCurVolumeCommand :=
      loadStringSetting vars "SetCurVolumeCommand" "pactl set-sink-volume '@DEFAULT_SINK@' $1%" }
  { vs with
    FontPath :=
      loadStringSetting vars "FontPath" "/usr/share/fonts/truetype/freefont/FreeSans.ttf" }

/-- Go `fetchSystemVolume`: get the volume from the system. -/
def fetchSystemVolume (env : Env) (w : World) : Except String Int × World :=
  let (out, w) := w.run env "bash" ["-c", w.vs.GetCurVolumeCommand]
  match utils.ExecCommandRaw out with
  | (_, some err) => (.error err, w)
  | (curVolStr, none) => (verifyVolumeString w.vs curVolStr, w)

/-- Go `updateSystemVolume`: set the new volume to the system; `none` is the `nil` error. -/
def updateSystemVolume (env : Env) (w : World) : Option String × World :=
  let (out, w) := w.run env "bash"
    ["-c", w.vs.SetCurVolumeCommand.replace "$1" (strconv.Itoa w.vp.currentVolume)]
  let (output, ok) := utils.ExecCommand "SetVolume" out
  (utils.Cond ok none (some output), w)

/-- Go `initRunTime`. -/
def initRunTime (env : Env) (w : World) : World :=
  let w := { w with vp := { w.vp with hasInitialized := true } }
  let w := { w with vs := loadSettings env.vars w.vs }
  -- Get the current volume
  let (res, w) := fetchSystemVolume env w
  let w :=
    match res with
    | .error _ => { w with vp := { w.vp with currentVolume := w.vs.DefaultVolume } }
    | .ok curVol => { w with vp := { w.vp with currentVolume := curVol } }
  -- Position the volume window
  w.PushCommand .vbCommandInitWindowAfterSettings

/-- The text returned for a `NewVolume` that does not match the pattern. -/
def invalidFormatText : String :=
  "Invalid NewVolume format. Pass a 1-3 digit integer, optionally preceded by a '+' or '-' sign. A '+' or '-' indicates a relative volume change from the current level, while no sign sets an absolute volume."

/-- The last part of `exec`: run the updates and return the message. -/
def execUpdate (env : Env) (w : World) : String × World :=
  match updateSystemVolume env w with
  | (some err, w) =>
    ("Error settings new volume (NewVolume=" ++ strconv.Itoa w.vp.currentVolume
      ++ ", normalBuffer=" ++ strconv.Itoa w.vp.normalBuffer ++ "): " ++ err, w)
  | (none, w) =>
    let w := w.PushCommand .vbCommandUpdateVolume
    ("NewVolume=" ++ strconv.Itoa w.vp.currentVolume
      ++ ", normalBuffer=" ++ strconv.Itoa w.vp.normalBuffer, w)

/-- Go `exec`: the text returned to the caller and the state left behind. -/
def exec (env : Env) (w : World) : String × World :=
  let w := if !w.vp.hasInitialized then initRunTime env w else w
  -- Get the requested new volume/relative change
  match env.getQueryVal "NewVolume" with
  | none => ("Missing NewVolume", w)
  | some newVolStr =>
    match FindStringSubmatch newVolStr with
    | [_, sign, digits] =>
      if sign ≠ "" then
        -- Relative change
        let (newVol, vp) := calcNewVolume w.vs w.vp
          (utils.Cond (sign == "+") 1 (-1)) (strconv.Atoi digits).1
        execUpdate env { w with vp := { vp with currentVolume := newVol } }
      else
        match verifyVolumeString w.vs digits with
        | .error err => ("Invalid absolute NewVolume: " ++ err, w)
        | .ok newVol =>
          -- Absolute change
          execUpdate env { w with vp := { w.vp with currentVolume := newVol, normalBuffer := 0 } }
    | _ => (invalidFormatText, w)

/-! ## Definitions used to state the theorems -/

/-- The relative branch of `exec` on the plugin: `vp.currentVolume = vp.calcNewVolume(...)`. -/
def stepRelative (vs : volumeSettings) (vp : volumePlugin) (direction stepSize : Int) :
    volumePlugin :=
  let (newVol, vp) := calcNewVolume vs vp direction stepSize
  { vp with currentVolume := newVol }

/-- The plugin after `n` successive relative `+1` steps. -/
def plusSteps (vs : volumeSettings) (vp : volumePlugin) : Nat → volumePlugin
  | 0 => vp
  | n + 1 => stepRelative vs (plusSteps vs vp n) 1 1

/-- The relative branch of `exec` on the plugin with the arithmetic of a 64-bit `int`:
`vp.currentVolume = vp.calcNewVolume(...)`. -/
def stepRelative64 (vs : volumeSettings) (vp : volumePlugin) (direction stepSize : Int) :
    volumePlugin :=
  let (newVol, vp) := calcNewVolume64 vs vp direction stepSize
  { vp with currentVolume := newVol }

/-- The plugin after `n` successive relative `+1` steps, with the arithmetic of a 64-bit
`int`. -/
def plusSteps64 (vs : volumeSettings) (vp : volumePlugin) : Nat → volumePlugin
  | 0 => vp
  | n + 1 => stepRelative64 vs (plusSteps64 vs vp n) 1 1

/-- The request grammar `^([+-]?)(\d{1,3})$`, stated on its own: an optional sign followed
by one to three decimal digits. -/
def MatchesGrammar (s : String) : Prop :=
  ∃ sign digits : List Char, s = String.mk (sign ++ digits) ∧
    (sign = [] ∨ sign = ['+'] ∨ sign = ['-']) ∧
    1 ≤ digits.length ∧ digits.length ≤ 3 ∧ ∀ c ∈ digits, c.isDigit = true

/-- The request of `env` is `NewVolume=s`. -/
def Env.requests (env : Env) (s : String) : Prop :=
  env.getQueryVal "NewVolume" = some s

/-- States of an initialized plugin reachable under the settings `vs`: start from any
initialized state with an empty buffer and a volume in `[0, OverMaxVolumeMax]`, then call
`exec` any number of times, each time with any request and any answers of the system. -/
inductive Reachable (vs : volumeSettings) : volumePlugin → Prop where
  | init (vp : volumePlugin) : vp.hasInitialized = true → vp.normalBuffer = 0 →
      0 ≤ vp.currentVolume → vp.currentVolume ≤ vs.OverMaxVolumeMax → Reachable vs vp
  | step (env : Env) (w : World) : w.vs = vs → Reachable vs w.vp →
      Reachable vs (exec env w).2.vp

/-- The direction and step size `exec` hands to `calcNewVolume` for the request of `env`,
`none` when the request is not a relative one. -/
def relativeRequest (env : Env) : Option (Int × Int) :=
  match env.getQueryVal "NewVolume" with
  | none => none
  | some newVolStr =>
    match FindStringSubmatch newVolStr with
    | [_, sign, digits] =>
      if sign ≠ "" then some (utils.Cond (sign == "+") 1 (-1), (strconv.Atoi digits).1)
      else none
    | _ => none

/-- The call `calcNewVolume(direction, stepSize)` executes the assignment
`remNormalBuffer = (vs.BufferSize + 1) * direction`, that is, it arms the buffer. -/
def arms (vs : volumeSettings) (vp : volumePlugin) (direction stepSize : Int) : Bool :=
  let delta := direction * stepSize
  delta ≠ 0 && !(vp.currentVolume + delta < 0) &&
    !(vp.currentVolume + delta > vs.OverMaxVolumeMax) &&
    reachesNormalMax vs vp.currentVolume (vp.currentVolume + delta)

/-- The direction of the last step that armed the buffer, after `exec env w`, when it was
`armedBy` before. -/
def armedByAfter (env : Env) (w : World) (armedBy : Int) : Int :=
  match relativeRequest env with
  | some (direction, stepSize) =>
    if arms w.vs w.vp direction stepSize then direction else armedBy
  | none => armedBy

/-- Reachability with a history variable: `ReachableArmed vs vp d` says that `vp` is reachable
and that `d` is the direction of the last step that armed the buffer (`0` if none did). -/
inductive ReachableArmed (vs : volumeSettings) : volumePlugin → Int → Prop where
  | init (vp : volumePlugin) : vp.hasInitialized = true → vp.normalBuffer = 0 →
      0 ≤ vp.currentVolume → vp.currentVolume ≤ vs.OverMaxVolumeMax → ReachableArmed vs vp 0
  | step (env : Env) (w : World) (armedBy : Int) : w.vs = vs →
      ReachableArmed vs w.vp armedBy →
      ReachableArmed vs (exec env w).2.vp (armedByAfter env w armedBy)

/-- Successive calls of `exec`, one per environment: the texts returned, in order, and the
state left behind. -/
def execAll (w : World) : List Env → List String × World
  | [] => ([], w)
  | env :: envs =>
    let (text, w1) := exec env w
    let (texts, w2) := execAll w1 envs
    (text :: texts, w2)

/-- Settings used in examples: `NormalVolumeMax = 100`, `OverMaxVolumeMax = 200`,
`BufferSize = 2`. -/
def exampleSettings : volumeSettings :=
  { volumeSettings.zero with
    NormalVolumeMax := 100, OverMaxVolumeMax := 200, BufferSize := 2, DefaultVolume := 50 }

/-- An initialized plugin at volume `currentVolume` with buffer `normalBuffer`. -/
def pluginAt (currentVolume normalBuffer : Int) : volumePlugin :=
  { normalBuffer := normalBuffer, hasInitialized := true, currentVolume := currentVolume }

/-- An environment whose request is `NewVolume=s` (no request for `none`) and whose shell
answers every command with `out`. -/
def exampleEnv (req : Option String) (out : String × Option String) : Env :=
  { getQueryVal := fun varName => if varName = "NewVolume" then req else none
    vars := fun _ => none
    CombinedOutput := fun _ _ _ => out }

/-- A world with the example settings and nothing sent out yet. -/
def exampleWorld (vp : volumePlugin) : World :=
  { vs := exampleSettings, vp := vp, ran := [], pushed := [] }

/-- A settings file whose section `Volume` sets each of the settings `names` to
`9223372036854775807`, the largest 64-bit `int`, and nothing else. -/
def maxInt64Vars (names : List String) : String → Option (String → Option String) :=
  fun sectionName =>
    if sectionName = "Volume" then
      some (fun settingName =>
        if settingName ∈ names then some "9223372036854775807" else none)
    else none

/-- The settings `loadSettings` reads from a file with `BufferSize=9223372036854775807`. -/
def maxBufferSettings : volumeSettings :=
  loadSettings (maxInt64Vars ["BufferSize"]) volumeSettings.zero

/-- The settings `loadSettings` reads from a file with `OverMaxVolumeMax=9223372036854775807`
and `DefaultVolume=9223372036854775807`. -/
def maxVolumeSettings : volumeSettings :=
  loadSettings (maxInt64Vars ["OverMaxVolumeMax", "DefaultVolume"]) volumeSettings.zero

/-- An environment with the settings file of `maxVolumeSettings`, whose request is
`NewVolume=s` and whose shell fails on every command. -/
def maxVolumeEnv (req : Option String) : Env :=
  { getQueryVal := fun varName => if varName = "NewVolume" then req else none
    vars := maxInt64Vars ["OverMaxVolumeMax", "DefaultVolume"]
    CombinedOutput := fun _ _ _ => ("", some "exit status 1") }

/-- The invariant of the reachable states, `armedBy` being the direction of the last step
that armed the buffer. -/
def Inv (vs : volumeSettings) (vp : volumePlugin) (armedBy : Int) : Prop :=
  vp.hasInitialized = true ∧ 0 ≤ vp.currentVolume ∧ vp.currentVolume ≤ vs.OverMaxVolumeMax ∧
  (vp.normalBuffer ≠ 0 → vp.currentVolume = vs.NormalVolumeMax) ∧
  -vs.BufferSize ≤ vp.normalBuffer ∧ vp.normalBuffer ≤ vs.BufferSize ∧
  (vp.normalBuffer ≠ 0 → (armedBy = 1 ∨ armedBy = -1) ∧ (0 < vp.normalBuffer ↔ 0 < armedBy))

/-! ## Definitions for the volume bar -/

/-- Go `float64(i)` for a 64-bit `int` `i`, as the integer the result holds: `i` itself up to
`2^53` in absolute value, and above that `i` rounded to 53 significant bits, ties to even. -/
def float64OfInt (i : Int) : Int :=
  let a := i.natAbs
  if a ≤ 2 ^ 53 then i
  else
    -- the number of bits of `a` beyond 53 (`a ≤ 2^63`): the lowest `e` bits of `a` do not fit
    -- the significand
    let e := ((List.range 11).filter (fun k => 2 ^ (53 + k) ≤ a)).length
    let q := a / 2 ^ e
    let r := a % 2 ^ e
    let q := if 2 * r > 2 ^ e ∨ (2 * r = 2 ^ e ∧ q % 2 = 1) then q + 1 else q
    Int.sign i * ((q * 2 ^ e : Nat) : Int)

/-- A filled rectangle drawn on the window: its colour and the two corners pushed to
`rectImage`, in pixels. The coordinates are `float64` values in the source; every one of them
is the conversion of an `int`, hence an integer, and is kept as that integer. -/
structure barRect where
  col : RGBA
  x1 : Int
  y1 : Int
  x2 : Int
  y2 : Int
  deriving DecidableEq, Repr

/-- Go `drawBarPart`: draw part of the volume bar, a full height rectangle from volume `v1`
to volume `v2`. The products are products of 64-bit `int`s, which wrap, and each coordinate is
converted to `float64`. -/
def drawBarPart (vs : volumeSettings) (col : RGBA) (v1 v2 : Int) : barRect :=
  { col := col, x1 := float64OfInt (wrap64 (v1 * vs.PercentPixelWidth)), y1 := 0,
    x2 := float64OfInt (wrap64 (v2 * vs.PercentPixelWidth)),
    y2 := float64OfInt vs.VolumeBarHeight }

/-- Go `drawWindow`, for `currentVolume = globalVP.GetCurrentVolume()`: the rectangles drawn,
in the order drawn. The volume text drawn over them (font metrics, floating point) is not
modelled. -/
def drawWindow (vs : volumeSettings) (currentVolume : Int) : List barRect :=
  let drawn : List barRect := []
  -- Normal volume bar
  let drawn :=
    if currentVolume > 0 then
      drawn ++ [drawBarPart vs vs.VolColor 0 (min currentVolume vs.NormalVolumeMax)]
    else drawn
  -- Over-max volume bar
  let drawn :=
    if currentVolume > vs.NormalVolumeMax then
      drawn ++ [drawBarPart vs vs.OverMaxColor vs.NormalVolumeMax currentVolume]
    else drawn
  -- Background
  if currentVolume < vs.OverMaxVolumeMax then
    drawn ++ [drawBarPart vs vs.BGColor currentVolume vs.OverMaxVolumeMax]
  else drawn

/-- The rectangles, left to right, go from pixel `a` to pixel `b`: each has positive width
and each starts where the previous one ended (no gap, no overlap). -/
def Tiles : List barRect → Int → Int → Prop
  | [], a, b => a = b
  | r :: rs, a, b => r.x1 = a ∧ r.x1 < r.x2 ∧ Tiles rs r.x2 b

/-- The example settings with the default geometry and colours of the volume bar. -/
def exampleBarSettings : volumeSettings :=
  { exampleSettings with
    PercentPixelWidth := 6, VolumeBarHeight := 80, ScreenWidth := 1920, VolumeBarTop := 30,
    VolumeBarTimeout := 2000,
    BGColor := ⟨0, 0, 0, 52⟩, VolColor := ⟨0, 0, 255, 52⟩, OverMaxColor := ⟨255, 0, 0, 52⟩,
    TextColor := ⟨255, 255, 255, 255⟩ }

/-! ## Definitions for the window loop -/

/-- Go `windowState` of `runWindowLoop`. -/
inductive windowState where
  | windowStateHidden
  | windowStateInitializing
  | windowStateVisible
  deriving DecidableEq, Repr

/-- What the window loop and its timers do to the window and its surroundings. -/
inductive vbAction where
  /-- The call `vb.initWindowAfterSettings()`. -/
  | initWindowAfterSettings
  /-- The call `vb.win.Clear` with the transparent colour. -/
  | winClear
  | HideFromTaskbar
  | winShow
  | winSetPos (x y : Int)
  /-- The statement `go func()` that sleeps 200 ms, then sets the state to visible and calls
  `vb.Update()`. -/
  | goSettleDelay
  | SetOnTop
  | MakeNonFocusable
  | drawWindow (rects : List barRect)
  /-- The call `myTimer.Reset` with the timeout in milliseconds. -/
  | timerReset (ms : Int)
  | winUpdate
  | winHide
  deriving DecidableEq, Repr

/-- The state of `runWindowLoop`, its channel and its timers. The goroutines are modelled as
events that happen one at a time (`loopStep`); the capacity of the channel is not modelled. -/
structure windowLoop where
  currentWindowState : windowState
  /-- The commands in the channel `vb.commands`, oldest first. -/
  commands : List volumeBarCommand
  /-- How many goroutines started by the hidden branch are still in their sleep. -/
  settling : Nat
  /-- Whether `myTimer` is set and has not fired. -/
  timerArmed : Bool
  /-- Whether the loop has returned. -/
  returned : Bool
  /-- What was done so far, oldest first. -/
  done : List vbAction
  deriving DecidableEq, Repr

/-- The state in which `runWindowLoop` enters its loop: hidden, and `myTimer` set by
`time.AfterFunc(0, ...)`. -/
def windowLoop.start : windowLoop :=
  { currentWindowState := .windowStateHidden, commands := [], settling := 0,
    timerArmed := true, returned := false, done := [] }

/-- One pass of the loop of `runWindowLoop` with the command `vbCommand` received: the
`switch` and the `vb.win.Update()` after it (the `default` arm of the `switch` is for values
that are none of the three declared commands). `currentVolume` is what
`globalVP.GetCurrentVolume()` returns. -/
def processCommand (vs : volumeSettings) (currentVolume : Int) (l : windowLoop)
    (vbCommand : volumeBarCommand) : windowLoop :=
  match vbCommand with
  | .vbCommandInitWindowAfterSettings =>
    { l with done := l.done ++ [.initWindowAfterSettings, .winUpdate] }
  | .vbCommandUpdateVolume =>
    -- Do not show the window until it has been positioned
    match l.currentWindowState with
    | .windowStateHidden =>
      { l with
        currentWindowState := .windowStateInitializing
        settling := l.settling + 1
        done := l.done ++ [.winClear, .HideFromTaskbar, .winShow,
          .winSetPos
            (vs.VolumeBarLeftOffset +
              Int.tdiv (vs.ScreenWidth - vs.PercentPixelWidth * vs.OverMaxVolumeMax) 2)
            vs.VolumeBarTop,
          .goSettleDelay, .winUpdate] }
    | .windowStateInitializing =>
      -- If still initializing nothing to do
      { l with done := l.done ++ [.winUpdate] }
    | .windowStateVisible =>
      { l with
        timerArmed := true
        done := l.done ++ [.SetOnTop, .MakeNonFocusable,
          .drawWindow (drawWindow vs currentVolume), .timerReset vs.VolumeBarTimeout,
          .winUpdate] }
  | .vbCommandCloseWindow => { l with returned := true }

/-- What can happen to the window loop. -/
inductive loopEvent where
  /-- The loop takes the oldest command from the channel and processes it. -/
  | receive
  /-- The channel is empty: the `default` case of the `select`. -/
  | poll
  /-- A call of `PushCommand` from outside the loop. -/
  | push (vbc : volumeBarCommand)
  /-- The sleep of a goroutine started by the hidden branch is over: it sets the state to
  visible and calls `vb.Update()`. -/
  | settleElapsed
  /-- The timer `myTimer` fires: hide the window, state hidden. -/
  | timerFired
  deriving DecidableEq, Repr

/-- One event of the window loop; `none` when the event cannot happen in the state. -/
def loopStep (vs : volumeSettings) (currentVolume : Int) (l : windowLoop) :
    loopEvent → Option windowLoop
  | .receive =>
    if l.returned then none
    else
      match l.commands with
      | [] => none
      | vbCommand :: rest =>
        some (processCommand vs currentVolume { l with commands := rest } vbCommand)
  | .poll =>
    if l.returned || !l.commands.isEmpty then none
    else some { l with done := l.done ++ [.winUpdate] }
  | .push vbc => some { l with commands := l.commands ++ [vbc] }
  | .settleElapsed =>
    if l.settling = 0 then none
    else some { l with
      settling := l.settling - 1
      currentWindowState := .windowStateVisible
      commands := l.commands ++ [.vbCommandUpdateVolume] }
  | .timerFired =>
    if !l.timerArmed then none
    else some { l with
      timerArmed := false
      currentWindowState := .windowStateHidden
      done := l.done ++ [.winHide] }

/-- Run the events in order from `l`; `none` as soon as one cannot happen. -/
def loopRun (vs : volumeSettings) (currentVolume : Int) (l : windowLoop) :
    List loopEvent → Option windowLoop
  | [] => some l
  | ev :: evs =>
    match loopStep vs currentVolume l ev with
    | none => none
    | some l1 => loopRun vs currentVolume l1 evs

/-! ## Parsing the request -/

theorem isDigit_bounds {c : Char} (h : strconv.isDigit c = true) :
    48 ≤ c.toNat ∧ c.toNat ≤ 57 := by
  simpa [strconv.isDigit] using h

theorem isDigit_not_sign {c : Char} (h : strconv.isDigit c = true) : c ≠ '+' ∧ c ≠ '-' := by
  have hb := isDigit_bounds h
  constructor
  · rintro rfl
    revert hb
    decide
  · rintro rfl
    revert hb
    decide

theorem matchDigits13_iff (cs : List Char) :
    matchDigits13 cs = true ↔
      1 ≤ cs.length ∧ cs.length ≤ 3 ∧ ∀ c ∈ cs, strconv.isDigit c = true := by
  simp [matchDigits13, and_assoc]

theorem digitsValue_range (cs : List Char) (h : matchDigits13 cs = true) :
    0 ≤ strconv.digitsValue cs ∧ strconv.digitsValue cs ≤ 999 := by
  obtain ⟨h1, h3, hall⟩ := (matchDigits13_iff cs).1 h
  match cs, h1, h3, hall with
  | [a], _, _, hall =>
    have ha := isDigit_bounds (hall a (by simp))
    simp only [strconv.digitsValue, List.foldl]
    omega
  | [a, b], _, _, hall =>
    have ha := isDigit_bounds (hall a (by simp))
    have hb := isDigit_bounds (hall b (by simp))
    simp only [strconv.digitsValue, List.foldl]
    omega
  | [a, b, c], _, _, hall =>
    have ha := isDigit_bounds (hall a (by simp))
    have hb := isDigit_bounds (hall b (by simp))
    have hc := isDigit_bounds (hall c (by simp))
    simp only [strconv.digitsValue, List.foldl]
    omega

theorem parseUintLoop_digits (cs : List Char) (h : matchDigits13 cs = true) :
    strconv.parseUintLoop cs 0 = ((strconv.digitsValue cs).toNat, none) := by
  obtain ⟨h1, h3, hall⟩ := (matchDigits13_iff cs).1 h
  match cs, h1, h3, hall with
  | [a], _, _, hall =>
    have ha := isDigit_bounds (hall a (by simp))
    simp only [strconv.parseUintLoop, strconv.digitsValue, List.foldl, hall a (by simp),
      Bool.not_true, Bool.false_eq_true, if_false]
    rw [if_neg (by omega)]
    congr 1
    omega
  | [a, b], _, _, hall =>
    have ha := isDigit_bounds (hall a (by simp))
    have hb := isDigit_bounds (hall b (by simp))
    simp only [strconv.parseUintLoop, strconv.digitsValue, List.foldl, hall a (by simp),
      hall b (by simp), Bool.not_true, Bool.false_eq_true, if_false]
    rw [if_neg (by omega), if_neg (by omega)]
    congr 1
    omega
  | [a, b, c], _, _, hall =>
    have ha := isDigit_bounds (hall a (by simp))
    have hb := isDigit_bounds (hall b (by simp))
    have hc := isDigit_bounds (hall c (by simp))
    simp only [strconv.parseUintLoop, strconv.digitsValue, List.foldl, hall a (by simp),
      hall b (by simp), hall c (by simp), Bool.not_true, Bool.false_eq_true, if_false]
    rw [if_neg (by omega), if_neg (by omega), if_neg (by omega)]
    congr 1
    omega

theorem Atoi_digits (cs : List Char) (h : matchDigits13 cs = true) :
    strconv.Atoi (String.mk cs) = (strconv.digitsValue cs, none) := by
  obtain ⟨h1, h3, hall⟩ := (matchDigits13_iff cs).1 h
  have hr := digitsValue_range cs h
  have hp := parseUintLoop_digits cs h
  match cs, h1, hall, hp with
  | c :: rest, _, hall, hp =>
    have hc := isDigit_not_sign (hall c (by simp))
    have hneg : (c == '-') = false := by simpa using hc.2
    simp only [strconv.Atoi, hc.1, hc.2, or_self, if_false, hp, hneg, List.cons_ne_nil,
      Bool.not_false, Bool.true_and, Bool.false_and, Bool.false_eq_true, decide_eq_true_eq]
    rw [if_neg (by omega)]
    congr 1
    omega

theorem FindStringSubmatch_cases (s : String) :
    FindStringSubmatch s = [] ∨
    ∃ sign ds, FindStringSubmatch s = [s, sign, String.mk ds] ∧
      (sign = "+" ∨ sign = "-" ∨ sign = "") ∧ matchDigits13 ds = true := by
  unfold FindStringSubmatch
  split
  · rename_i rest _
    by_cases h : matchDigits13 rest = true
    · exact Or.inr ⟨"+", rest, by simp [h], by simp, h⟩
    · exact Or.inl (by simp [h])
  · rename_i rest _
    by_cases h : matchDigits13 rest = true
    · exact Or.inr ⟨"-", rest, by simp [h], by simp, h⟩
    · exact Or.inl (by simp [h])
  · by_cases h : matchDigits13 s.data = true
    · exact Or.inr ⟨"", s.data, by simp [h], by simp, h⟩
    · exact Or.inl (by simp [h])

/-- The command line `updateSystemVolume` hands to the shell. -/
theorem updateSystemVolume_snd (env : Env) (w : World) :
    (updateSystemVolume env w).2 =
      { w with ran := w.ran ++ [("bash",
          ["-c", w.vs.SetCurVolumeCommand.replace "$1" (strconv.Itoa w.vp.currentVolume)])] } :=
  rfl

theorem execUpdate_eq (env : Env) (w : World) :
    execUpdate env w =
      match (updateSystemVolume env w).1 with
      | some err =>
        ("Error settings new volume (NewVolume=" ++ strconv.Itoa w.vp.currentVolume
          ++ ", normalBuffer=" ++ strconv.Itoa w.vp.normalBuffer ++ "): " ++ err,
          (updateSystemVolume env w).2)
      | none =>
        ("NewVolume=" ++ strconv.Itoa w.vp.currentVolume
          ++ ", normalBuffer=" ++ strconv.Itoa w.vp.normalBuffer,
          (updateSystemVolume env w).2.PushCommand .vbCommandUpdateVolume) := by
  have h2 := updateSystemVolume_snd env w
  unfold execUpdate
  generalize updateSystemVolume env w = r at h2 ⊢
  obtain ⟨e, w1⟩ := r
  cases e <;> simp_all [World.PushCommand]

theorem execUpdate_vp (env : Env) (w : World) : (execUpdate env w).2.vp = w.vp := by
  rw [execUpdate_eq]
  cases (updateSystemVolume env w).1 <;> simp [updateSystemVolume_snd, World.PushCommand]

theorem execUpdate_vs (env : Env) (w : World) : (execUpdate env w).2.vs = w.vs := by
  rw [execUpdate_eq]
  cases (updateSystemVolume env w).1 <;> simp [updateSystemVolume_snd, World.PushCommand]

/-! ## The paths through `calcNewVolume` and the invariant -/

theorem reachesNormalMax_iff (vs : volumeSettings) (c n : Int) :
    reachesNormalMax vs c n = true ↔
      (c < vs.NormalVolumeMax ∧ vs.NormalVolumeMax ≤ n) ∨
      (vs.NormalVolumeMax < c ∧ n ≤ vs.NormalVolumeMax) := by
  simp [reachesNormalMax]

/-- The paths through `calcNewVolume`, one disjunct per `return`. -/
theorem calcNewVolume_cases (vs : volumeSettings) (vp : volumePlugin) (d n : Int) :
    (d * n = 0 ∧ calcNewVolume vs vp d n = (vp.currentVolume, vp)) ∨
    (d * n ≠ 0 ∧ vp.currentVolume + d * n < 0 ∧
      calcNewVolume vs vp d n = (0, { vp with normalBuffer := 0 })) ∨
    (d * n ≠ 0 ∧ 0 ≤ vp.currentVolume + d * n ∧
      vs.OverMaxVolumeMax < vp.currentVolume + d * n ∧
      calcNewVolume vs vp d n = (vs.OverMaxVolumeMax, { vp with normalBuffer := 0 })) ∨
    (d * n ≠ 0 ∧ 0 ≤ vp.currentVolume + d * n ∧
      vp.currentVolume + d * n ≤ vs.OverMaxVolumeMax ∧
      ∃ rem : Int,
        rem = (if reachesNormalMax vs vp.currentVolume (vp.currentVolume + d * n) = true
          then (vs.BufferSize + 1) * d else vp.normalBuffer) ∧
        (((rem = 0 ∨ ¬(0 < d ↔ 0 < rem)) ∧
            calcNewVolume vs vp d n = (vp.currentVolume + d * n, { vp with normalBuffer := 0 })) ∨
         (rem ≠ 0 ∧ (0 < d ↔ 0 < rem) ∧ rem - d = 0 ∧
            calcNewVolume vs vp d n = (vp.currentVolume + d * n, { vp with normalBuffer := 0 })) ∨
         (rem ≠ 0 ∧ (0 < d ↔ 0 < rem) ∧ rem - d ≠ 0 ∧
            calcNewVolume vs vp d n =
              (vs.NormalVolumeMax, { vp with normalBuffer := rem - d })))) := by
  unfold calcNewVolume
  by_cases h0 : d * n = 0
  · left
    simp [h0]
  by_cases hlo : vp.currentVolume + d * n < 0
  · right; left
    simp [h0, hlo]
  by_cases hhi : vs.OverMaxVolumeMax < vp.currentVolume + d * n
  · right; right; left
    simp [h0, hlo, hhi]
    omega
  right; right; right
  refine ⟨h0, by omega, by omega, _, rfl, ?_⟩
  by_cases hr : reachesNormalMax vs vp.currentVolume (vp.currentVolume + d * n) = true
  · simp only [h0, hlo, hhi, hr, if_true, if_false]
    by_cases ha : (vs.BufferSize + 1) * d = 0 ∨ ¬(0 < d ↔ 0 < (vs.BufferSize + 1) * d)
    · left
      refine ⟨ha, ?_⟩
      rw [if_pos]
      simpa using ha
    · right
      have ha2 : ¬((vs.BufferSize + 1) * d = 0 ∨
          decide (d > 0) ≠ decide ((vs.BufferSize + 1) * d > 0)) := by simpa using ha
      rw [if_neg ha2]
      push_neg at ha
      by_cases hz : (vs.BufferSize + 1) * d - d = 0
      · left
        refine ⟨ha.1, ha.2, hz, ?_⟩
        simp [hz]
      · right
        refine ⟨ha.1, ha.2, hz, ?_⟩
        simp [hz]
  · simp only [h0, hlo, hhi, hr, if_true, if_false, Bool.false_eq_true]
    by_cases ha : vp.normalBuffer = 0 ∨ ¬(0 < d ↔ 0 < vp.normalBuffer)
    · left
      refine ⟨ha, ?_⟩
      rw [if_pos]
      simpa using ha
    · right
      have ha2 : ¬(vp.normalBuffer = 0 ∨
          decide (d > 0) ≠ decide (vp.normalBuffer > 0)) := by simpa using ha
      rw [if_neg ha2]
      push_neg at ha
      by_cases hz : vp.normalBuffer - d = 0
      · left
        refine ⟨ha.1, ha.2, hz, ?_⟩
        simp [hz]
      · right
        refine ⟨ha.1, ha.2, hz, ?_⟩
        simp [hz]


theorem arms_iff (vs : volumeSettings) (vp : volumePlugin) (d n : Int) :
    arms vs vp d n = true ↔
      d * n ≠ 0 ∧ 0 ≤ vp.currentVolume + d * n ∧
      vp.currentVolume + d * n ≤ vs.OverMaxVolumeMax ∧
      reachesNormalMax vs vp.currentVolume (vp.currentVolume + d * n) = true := by
  simp [arms, and_assoc]

theorem stepRelative_Inv (vs : volumeSettings) (vp : volumePlugin) (d n a : Int)
    (h1 : 1 ≤ vs.NormalVolumeMax) (h2 : vs.NormalVolumeMax ≤ vs.OverMaxVolumeMax)
    (hB : 0 ≤ vs.BufferSize) (hd : d = 1 ∨ d = -1) (hI : Inv vs vp a) :
    Inv vs (stepRelative vs vp d n) (if arms vs vp d n = true then d else a) := by
  obtain ⟨i0, i1, i2, i3, i4, i5, i6⟩ := hI
  have hc := calcNewVolume_cases vs vp d n
  have ha := arms_iff vs vp d n
  have hr := reachesNormalMax_iff vs vp.currentVolume (vp.currentVolume + d * n)
  have hBd : (vs.BufferSize + 1) * d = vs.BufferSize * d + d := by ring
  rw [hBd] at hc
  unfold Inv stepRelative
  by_cases hcr : reachesNormalMax vs vp.currentVolume (vp.currentVolume + d * n) = true <;>
    by_cases hb : arms vs vp d n = true
  pick_goal 3
  · exact absurd (ha.1 hb).2.2.2 hcr
  all_goals
    simp only [hcr, hb, true_iff, false_iff, and_true, and_false, if_true, if_false,
      not_false_eq_true, Bool.false_eq_true] at hr ha hc ⊢
    rcases hd with rfl | rfl
    · simp only [one_mul, mul_one] at hc ha hr
      rcases hc with ⟨h, e⟩ | ⟨h, h', e⟩ | ⟨h, h', h'', e⟩ |
        ⟨h, h', h'', rem, hrem, ⟨hq, e⟩ | ⟨hq1, hq2, hq3, e⟩ | ⟨hq1, hq2, hq3, e⟩⟩
      all_goals
        rw [e]
        refine ⟨i0, ?_, ?_, ?_, ?_, ?_, ?_⟩ <;> dsimp only <;> omega
    · simp only [neg_mul, one_mul, mul_neg, mul_one] at hc ha hr
      rcases hc with ⟨h, e⟩ | ⟨h, h', e⟩ | ⟨h, h', h'', e⟩ |
        ⟨h, h', h'', rem, hrem, ⟨hq, e⟩ | ⟨hq1, hq2, hq3, e⟩ | ⟨hq1, hq2, hq3, e⟩⟩
      all_goals
        rw [e]
        refine ⟨i0, ?_, ?_, ?_, ?_, ?_, ?_⟩ <;> dsimp only <;> omega

/-! ## The paths through `exec` -/

theorem verifyVolumeString_digits (vs : volumeSettings) (ds : List Char)
    (h : matchDigits13 ds = true) :
    verifyVolumeString vs (String.mk ds) =
      if strconv.digitsValue ds > vs.OverMaxVolumeMax then
        .error ("Volume [" ++ strconv.Itoa (strconv.digitsValue ds) ++ "] cannot be larger than "
          ++ strconv.Itoa vs.OverMaxVolumeMax)
      else .ok (strconv.digitsValue ds) := by
  unfold verifyVolumeString
  simp only [h, Bool.not_true, Bool.false_eq_true, if_false, Atoi_digits ds h]

/-- What `exec` does to an initialized plugin: nothing, a relative step, or an absolute set. -/
theorem exec_cases (env : Env) (w : World) (hinit : w.vp.hasInitialized = true) :
    (exec env w).2.vs = w.vs ∧
    ((relativeRequest env = none ∧ (exec env w).2 = w) ∨
     (∃ d n, relativeRequest env = some (d, n) ∧ (d = 1 ∨ d = -1) ∧ 0 ≤ n ∧ n ≤ 999 ∧
        (exec env w).2.vp = stepRelative w.vs w.vp d n) ∨
     (∃ v, relativeRequest env = none ∧ 0 ≤ v ∧ v ≤ w.vs.OverMaxVolumeMax ∧
        (exec env w).2.vp = { w.vp with currentVolume := v, normalBuffer := 0 })) := by
  unfold exec relativeRequest
  simp only [hinit, Bool.not_true, Bool.false_eq_true, if_false]
  cases hq : env.getQueryVal "NewVolume" with
  | none => exact ⟨rfl, Or.inl ⟨rfl, rfl⟩⟩
  | some s =>
    rcases FindStringSubmatch_cases s with h | ⟨sign, ds, h, hsign, hds⟩
    · simp only [h]
      refine ⟨?_, Or.inl ⟨?_, ?_⟩⟩ <;> first | rfl | trivial
    · have hv := digitsValue_range ds hds
      simp only [h]
      rcases hsign with rfl | rfl | rfl
      · refine ⟨?_, Or.inr (Or.inl ⟨1, strconv.digitsValue ds, ?_, Or.inl rfl, hv.1, hv.2, ?_⟩)⟩
        · simp [execUpdate_vs]
        · simp [Atoi_digits ds hds, utils.Cond]
        · simp [execUpdate_vp, Atoi_digits ds hds, utils.Cond, stepRelative]
      · refine ⟨?_, Or.inr (Or.inl ⟨-1, strconv.digitsValue ds, ?_, Or.inr rfl, hv.1, hv.2, ?_⟩)⟩
        · simp [execUpdate_vs]
        · simp [Atoi_digits ds hds, utils.Cond]
        · simp [execUpdate_vp, Atoi_digits ds hds, utils.Cond, stepRelative]
      · simp only [ne_eq, not_true_eq_false, if_false, verifyVolumeString_digits w.vs ds hds]
        by_cases hgt : strconv.digitsValue ds > w.vs.OverMaxVolumeMax
        · simp only [hgt, if_true]
          refine ⟨?_, Or.inl ⟨?_, ?_⟩⟩ <;> first | rfl | trivial
        · simp only [hgt, if_false]
          refine ⟨?_, Or.inr (Or.inr ⟨strconv.digitsValue ds, ?_, hv.1, by omega, ?_⟩)⟩
          · simp [execUpdate_vs]
          · first | rfl | trivial
          · simp [execUpdate_vp]

/-! ## Ranges, settings and the first call -/

theorem calcNewVolume_range (vs : volumeSettings) (vp : volumePlugin) (d n : Int)
    (h1 : 1 ≤ vs.NormalVolumeMax) (h2 : vs.NormalVolumeMax ≤ vs.OverMaxVolumeMax)
    (hlo : 0 ≤ vp.currentVolume) (hhi : vp.currentVolume ≤ vs.OverMaxVolumeMax) :
    0 ≤ (calcNewVolume vs vp d n).1 ∧ (calcNewVolume vs vp d n).1 ≤ vs.OverMaxVolumeMax := by
  rcases calcNewVolume_cases vs vp d n with ⟨h, e⟩ | ⟨h, h', e⟩ | ⟨h, h', h'', e⟩ |
    ⟨h, h', h'', rem, hrem, ⟨hq, e⟩ | ⟨hq1, hq2, hq3, e⟩ | ⟨hq1, hq2, hq3, e⟩⟩
  all_goals
    rw [e]
    dsimp only
    omega

theorem stepRelative_currentVolume (vs : volumeSettings) (vp : volumePlugin) (d n : Int) :
    (stepRelative vs vp d n).currentVolume = (calcNewVolume vs vp d n).1 := rfl

theorem stepRelative_normalBuffer (vs : volumeSettings) (vp : volumePlugin) (d n : Int) :
    (stepRelative vs vp d n).normalBuffer = (calcNewVolume vs vp d n).2.normalBuffer := rfl

theorem loadIntSetting_some (vars : String → Option (String → Option String))
    (settingName : String) (theDefault : Int) (f : Int → Int) :
    ∃ v, loadIntSetting vars settingName theDefault (some f) = f v := by
  unfold loadIntSetting
  exact ⟨_, rfl⟩

/-- The settings `loadSettings` leaves satisfy the constraints of the volume controller. -/
theorem loadSettings_constraints (vars : String → Option (String → Option String))
    (vs : volumeSettings) :
    1 ≤ (loadSettings vars vs).NormalVolumeMax ∧
    (loadSettings vars vs).NormalVolumeMax ≤ (loadSettings vars vs).OverMaxVolumeMax ∧
    0 ≤ (loadSettings vars vs).BufferSize ∧
    0 ≤ (loadSettings vars vs).DefaultVolume ∧
    (loadSettings vars vs).DefaultVolume ≤ (loadSettings vars vs).OverMaxVolumeMax := by
  have e1 : (loadSettings vars vs).NormalVolumeMax =
      loadIntSetting vars "NormalVolumeMax" 100 (some fun v => max v 1) := rfl
  have e2 : (loadSettings vars vs).BufferSize =
      loadIntSetting vars "BufferSize" 5 (some fun v => max v 0) := rfl
  have e3 : (loadSettings vars vs).OverMaxVolumeMax =
      loadIntSetting vars "OverMaxVolumeMax" 200
        (some fun v => max v (loadSettings vars vs).NormalVolumeMax) := rfl
  have e4 : (loadSettings vars vs).DefaultVolume =
      loadIntSetting vars "DefaultVolume" 50
        (some fun v => max 0 (min v (loadSettings vars vs).OverMaxVolumeMax)) := rfl
  obtain ⟨v1, h1⟩ := loadIntSetting_some vars "NormalVolumeMax" 100 (fun v => max v 1)
  obtain ⟨v2, h2⟩ := loadIntSetting_some vars "BufferSize" 5 (fun v => max v 0)
  obtain ⟨v3, h3⟩ := loadIntSetting_some vars "OverMaxVolumeMax" 200
    (fun v => max v (loadSettings vars vs).NormalVolumeMax)
  obtain ⟨v4, h4⟩ := loadIntSetting_some vars "DefaultVolume" 50
    (fun v => max 0 (min v (loadSettings vars vs).OverMaxVolumeMax))
  rw [h1] at e1
  rw [h2] at e2
  rw [h3] at e3
  rw [h4] at e4
  omega

theorem verifyVolumeString_ok (vs : volumeSettings) (volStr : String) (v : Int)
    (h : verifyVolumeString vs volStr = .ok v) : 0 ≤ v ∧ v ≤ vs.OverMaxVolumeMax := by
  by_cases hm : matchDigits13 volStr.data = true
  · have hv := digitsValue_range _ hm
    have e := verifyVolumeString_digits vs volStr.data hm
    have hs : String.mk volStr.data = volStr := rfl
    rw [hs, h] at e
    by_cases hgt : strconv.digitsValue volStr.data > vs.OverMaxVolumeMax
    · rw [if_pos hgt] at e
      cases e
    · rw [if_neg hgt] at e
      cases e
      omega
  · unfold verifyVolumeString at h
    simp [hm] at h

theorem fetchSystemVolume_snd (env : Env) (w : World) :
    (fetchSystemVolume env w).2 =
      { w with ran := w.ran ++ [("bash", ["-c", w.vs.GetCurVolumeCommand])] } := by
  unfold fetchSystemVolume World.run
  dsimp only
  split <;> rfl

theorem fetchSystemVolume_fst (env : Env) (w : World) :
    (∃ err, (fetchSystemVolume env w).1 = .error err) ∨
    (∃ curVolStr, (fetchSystemVolume env w).1 = verifyVolumeString w.vs curVolStr) := by
  unfold fetchSystemVolume World.run
  dsimp only
  split
  · exact Or.inl ⟨_, rfl⟩
  · exact Or.inr ⟨_, rfl⟩

theorem initRunTime_spec (env : Env) (w : World) :
    (initRunTime env w).vp.hasInitialized = true ∧
    (initRunTime env w).vs = loadSettings env.vars w.vs ∧
    (initRunTime env w).vp.normalBuffer = w.vp.normalBuffer ∧
    0 ≤ (initRunTime env w).vp.currentVolume ∧
    (initRunTime env w).vp.currentVolume ≤ (initRunTime env w).vs.OverMaxVolumeMax := by
  have hc := loadSettings_constraints env.vars w.vs
  unfold initRunTime World.PushCommand
  dsimp only
  rcases hf : fetchSystemVolume env _ with ⟨res, w2⟩
  have h2 := congrArg Prod.snd hf
  have h1 := congrArg Prod.fst hf
  rw [fetchSystemVolume_snd] at h2
  dsimp only at h1 h2
  subst h2
  cases res with
  | error e =>
    dsimp only
    refine ⟨rfl, rfl, rfl, ?_, ?_⟩ <;> omega
  | ok v =>
    rcases fetchSystemVolume_fst env _ with ⟨e, he⟩ | ⟨s, hs⟩
    · rw [he] at h1
      cases h1
    · rw [hs] at h1
      have := verifyVolumeString_ok _ _ _ h1
      dsimp only at this ⊢
      refine ⟨rfl, rfl, rfl, ?_, ?_⟩ <;> omega

theorem exec_uninitialized (env : Env) (w : World) (h : w.vp.hasInitialized = false) :
    exec env w = exec env (initRunTime env w) := by
  have hi := (initRunTime_spec env w).1
  unfold exec
  simp only [h, hi, Bool.not_true, Bool.not_false, Bool.false_eq_true, if_true, if_false]

/-! ## Reachable states and the claims about the volume controller -/

theorem exec_Inv (env : Env) (w : World) (a : Int)
    (h1 : 1 ≤ w.vs.NormalVolumeMax) (h2 : w.vs.NormalVolumeMax ≤ w.vs.OverMaxVolumeMax)
    (hB : 0 ≤ w.vs.BufferSize) (hI : Inv w.vs w.vp a) :
    Inv w.vs (exec env w).2.vp (armedByAfter env w a) := by
  obtain ⟨_, hc⟩ := exec_cases env w hI.1
  unfold armedByAfter
  rcases hc with ⟨hr, e⟩ | ⟨d, n, hr, hd, _, _, e⟩ | ⟨v, hr, hv0, hv1, e⟩
  · rw [hr, e]
    exact hI
  · rw [hr, e]
    exact stepRelative_Inv w.vs w.vp d n a h1 h2 hB hd hI
  · rw [hr, e]
    obtain ⟨i0, _, _, _, _, _, _⟩ := hI
    refine ⟨i0, hv0, hv1, ?_, ?_, ?_, ?_⟩ <;> dsimp only <;> omega

theorem ReachableArmed_Inv {vs : volumeSettings} {vp : volumePlugin} {a : Int}
    (h1 : 1 ≤ vs.NormalVolumeMax) (h2 : vs.NormalVolumeMax ≤ vs.OverMaxVolumeMax)
    (hB : 0 ≤ vs.BufferSize) (h : ReachableArmed vs vp a) : Inv vs vp a := by
  induction h with
  | init vp hi hn hlo hhi =>
    refine ⟨hi, hlo, hhi, ?_, ?_, ?_, ?_⟩ <;> omega
  | step env w a hvs _ ih =>
    subst hvs
    exact exec_Inv env w a h1 h2 hB ih

theorem Reachable_armed {vs : volumeSettings} {vp : volumePlugin} (h : Reachable vs vp) :
    ∃ a, ReachableArmed vs vp a := by
  induction h with
  | init vp hi hn hlo hhi => exact ⟨0, .init vp hi hn hlo hhi⟩
  | step env w hvs _ ih =>
    obtain ⟨a, ha⟩ := ih
    exact ⟨_, .step env w a hvs ha⟩

theorem Reachable_Inv {vs : volumeSettings} {vp : volumePlugin}
    (h1 : 1 ≤ vs.NormalVolumeMax) (h2 : vs.NormalVolumeMax ≤ vs.OverMaxVolumeMax)
    (hB : 0 ≤ vs.BufferSize) (h : Reachable vs vp) : ∃ a, Inv vs vp a := by
  obtain ⟨a, ha⟩ := Reachable_armed h
  exact ⟨a, ReachableArmed_Inv h1 h2 hB ha⟩

theorem exec_initialized_range (env : Env) (w : World) (hinit : w.vp.hasInitialized = true)
    (h1 : 1 ≤ w.vs.NormalVolumeMax) (h2 : w.vs.NormalVolumeMax ≤ w.vs.OverMaxVolumeMax)
    (hlo : 0 ≤ w.vp.currentVolume) (hhi : w.vp.currentVolume ≤ w.vs.OverMaxVolumeMax) :
    0 ≤ (exec env w).2.vp.currentVolume ∧
    (exec env w).2.vp.currentVolume ≤ (exec env w).2.vs.OverMaxVolumeMax := by
  obtain ⟨hvs, hc⟩ := exec_cases env w hinit
  rw [hvs]
  rcases hc with ⟨_, e⟩ | ⟨d, n, _, _, _, _, e⟩ | ⟨v, _, hv0, hv1, e⟩
  · rw [e]
    exact ⟨hlo, hhi⟩
  · rw [e, stepRelative_currentVolume]
    exact calcNewVolume_range w.vs w.vp d n h1 h2 hlo hhi
  · rw [e]
    exact ⟨hv0, hv1⟩

/-- C1: under settings with `1 ≤ NormalVolumeMax ≤ OverMaxVolumeMax` (whatever `BufferSize`),
from a state with `0 ≤ currentVolume ≤ OverMaxVolumeMax` (any `normalBuffer`, initialized or
not), after `exec` has handled any request (relative, absolute or rejected, whatever the
system answers) `currentVolume` is within `[0, OverMaxVolumeMax]` of the settings then in
force, which are the given ones when the plugin was initialized; and `calcNewVolume` returns
a value in `[0, OverMaxVolumeMax]` for every direction and step size, in particular for a
direction `+1` or `-1` and a step size `≥ 0`. -/
theorem exec_currentVolume_in_range (env : Env) (w : World) (direction stepSize : Int)
    (hnm : 1 ≤ w.vs.NormalVolumeMax) (hom : w.vs.NormalVolumeMax ≤ w.vs.OverMaxVolumeMax)
    (hlo : 0 ≤ w.vp.currentVolume) (hhi : w.vp.currentVolume ≤ w.vs.OverMaxVolumeMax) :
    (0 ≤ (exec env w).2.vp.currentVolume ∧
      (exec env w).2.vp.currentVolume ≤ (exec env w).2.vs.OverMaxVolumeMax) ∧
    (w.vp.hasInitialized = true → (exec env w).2.vs = w.vs) ∧
    (0 ≤ (calcNewVolume w.vs w.vp direction stepSize).1 ∧
      (calcNewVolume w.vs w.vp direction stepSize).1 ≤ w.vs.OverMaxVolumeMax) := by
  refine ⟨?_, fun hinit => (exec_cases env w hinit).1,
    calcNewVolume_range w.vs w.vp direction stepSize hnm hom hlo hhi⟩
  cases hinit : w.vp.hasInitialized with
  | true => exact exec_initialized_range env w hinit hnm hom hlo hhi
  | false =>
    rw [exec_uninitialized env w hinit]
    obtain ⟨i1, i2, _, i4, i5⟩ := initRunTime_spec env w
    have hc := loadSettings_constraints env.vars w.vs
    rw [← i2] at hc
    exact exec_initialized_range env _ i1 hc.1 hc.2.1 i4 i5

theorem exec_currentVolume_in_range_witness :
    (1 ≤ exampleSettings.NormalVolumeMax ∧
      exampleSettings.NormalVolumeMax ≤ exampleSettings.OverMaxVolumeMax ∧
      (0 : Int) ≤ 99 ∧ (99 : Int) ≤ exampleSettings.OverMaxVolumeMax) ∧
    (0 ≤ (exec (exampleEnv (some "+150") ("", none))
        (exampleWorld (pluginAt 99 0))).2.vp.currentVolume ∧
      (exec (exampleEnv (some "+150") ("", none))
        (exampleWorld (pluginAt 99 0))).2.vp.currentVolume ≤
      (exec (exampleEnv (some "+150") ("", none))
        (exampleWorld (pluginAt 99 0))).2.vs.OverMaxVolumeMax) ∧
    (0 ≤ (calcNewVolume exampleSettings (pluginAt 99 0) (-1) 150).1 ∧
      (calcNewVolume exampleSettings (pluginAt 99 0) (-1) 150).1 ≤ 200) :=
  have h := exec_currentVolume_in_range (exampleEnv (some "+150") ("", none))
    (exampleWorld (pluginAt 99 0)) (-1) 150 (by decide) (by decide) (by decide) (by decide)
  ⟨by decide, h.1, h.2.2⟩

/-- C2: for a relative step with `delta = direction * stepSize ≠ 0` whose target
`currentVolume + delta` lies in `[0, OverMaxVolumeMax]` and which does not reach or pass
`NormalVolumeMax` in either direction, if the stored `normalBuffer` is zero or its sign differs
from the direction of the step, `calcNewVolume` returns exactly `currentVolume + delta` and
the stored `normalBuffer` afterwards is `0`. -/
theorem calcNewVolume_commits_without_buffer (vs : volumeSettings) (vp : volumePlugin)
    (direction stepSize : Int) (hdir : direction = 1 ∨ direction = -1)
    (hdelta : direction * stepSize ≠ 0)
    (hlo : 0 ≤ vp.currentVolume + direction * stepSize)
    (hhi : vp.currentVolume + direction * stepSize ≤ vs.OverMaxVolumeMax)
    (hup : ¬(vp.currentVolume < vs.NormalVolumeMax ∧
      vs.NormalVolumeMax ≤ vp.currentVolume + direction * stepSize))
    (hdown : ¬(vp.currentVolume > vs.NormalVolumeMax ∧
      vs.NormalVolumeMax ≥ vp.currentVolume + direction * stepSize))
    (hbuf : vp.normalBuffer = 0 ∨ vp.normalBuffer * direction < 0) :
    (calcNewVolume vs vp direction stepSize).1 = vp.currentVolume + direction * stepSize ∧
    (calcNewVolume vs vp direction stepSize).2.normalBuffer = 0 := by
  have hr := reachesNormalMax_iff vs vp.currentVolume (vp.currentVolume + direction * stepSize)
  have hnr : ¬reachesNormalMax vs vp.currentVolume
      (vp.currentVolume + direction * stepSize) = true := by
    rw [hr]
    omega
  have hc := calcNewVolume_cases vs vp direction stepSize
  rw [if_neg hnr] at hc
  rcases hdir with rfl | rfl
  · simp only [one_mul, mul_one] at hc hbuf hlo hhi hdelta ⊢
    rcases hc with ⟨h, e⟩ | ⟨h, h', e⟩ | ⟨h, h', h'', e⟩ |
      ⟨h, h', h'', rem, hrem, ⟨hq, e⟩ | ⟨hq1, hq2, hq3, e⟩ | ⟨hq1, hq2, hq3, e⟩⟩
    all_goals
      rw [e]
      dsimp only
      omega
  · simp only [neg_mul, one_mul, mul_neg, mul_one] at hc hbuf hlo hhi hdelta ⊢
    rcases hc with ⟨h, e⟩ | ⟨h, h', e⟩ | ⟨h, h', h'', e⟩ |
      ⟨h, h', h'', rem, hrem, ⟨hq, e⟩ | ⟨hq1, hq2, hq3, e⟩ | ⟨hq1, hq2, hq3, e⟩⟩
    all_goals
      rw [e]
      dsimp only
      omega

theorem calcNewVolume_commits_without_buffer_witness :
    ((-1 : Int) * 5 ≠ 0 ∧ (2 : Int) * -1 < 0) ∧
    (calcNewVolume exampleSettings (pluginAt 100 2) (-1) 5).1 = 95 ∧
    (calcNewVolume exampleSettings (pluginAt 100 2) (-1) 5).2.normalBuffer = 0 :=
  ⟨by decide, calcNewVolume_commits_without_buffer exampleSettings (pluginAt 100 2) (-1) 5
    (Or.inr rfl) (by decide) (by decide) (by decide) (by decide) (by decide)
    (Or.inr (by decide))⟩

/-- The step that reaches or passes `NormalVolumeMax`, computed over the unbounded integers:
for `delta ≠ 0` and a target `currentVolume + delta` in `[0, OverMaxVolumeMax]`, whatever
`normalBuffer` held before, the stored `normalBuffer` after the step is
`direction * BufferSize`, and the returned volume is `NormalVolumeMax` when `BufferSize ≥ 1`
and `currentVolume + delta` when `BufferSize = 0`. -/
theorem calcNewVolume_crossing (vs : volumeSettings) (vp : volumePlugin)
    (direction stepSize : Int) (hdir : direction = 1 ∨ direction = -1)
    (hbs : 0 ≤ vs.BufferSize) (hdelta : direction * stepSize ≠ 0)
    (hlo : 0 ≤ vp.currentVolume + direction * stepSize)
    (hhi : vp.currentVolume + direction * stepSize ≤ vs.OverMaxVolumeMax)
    (hcross : (vp.currentVolume < vs.NormalVolumeMax ∧
        vs.NormalVolumeMax ≤ vp.currentVolume + direction * stepSize) ∨
      (vp.currentVolume > vs.NormalVolumeMax ∧
        vs.NormalVolumeMax ≥ vp.currentVolume + direction * stepSize)) :
    (calcNewVolume vs vp direction stepSize).2.normalBuffer = direction * vs.BufferSize ∧
    (1 ≤ vs.BufferSize → (calcNewVolume vs vp direction stepSize).1 = vs.NormalVolumeMax) ∧
    (vs.BufferSize = 0 →
      (calcNewVolume vs vp direction stepSize).1 = vp.currentVolume + direction * stepSize) := by
  have hr := reachesNormalMax_iff vs vp.currentVolume (vp.currentVolume + direction * stepSize)
  have hnr : reachesNormalMax vs vp.currentVolume
      (vp.currentVolume + direction * stepSize) = true := by
    rw [hr]
    omega
  have hc := calcNewVolume_cases vs vp direction stepSize
  rw [if_pos hnr] at hc
  rcases hdir with rfl | rfl
  · simp only [one_mul, mul_one] at hc hlo hhi hdelta ⊢
    rcases hc with ⟨h, e⟩ | ⟨h, h', e⟩ | ⟨h, h', h'', e⟩ |
      ⟨h, h', h'', rem, hrem, ⟨hq, e⟩ | ⟨hq1, hq2, hq3, e⟩ | ⟨hq1, hq2, hq3, e⟩⟩
    all_goals
      rw [e]
      dsimp only
      omega
  · simp only [neg_mul, one_mul, mul_neg, mul_one] at hc hlo hhi hdelta ⊢
    rcases hc with ⟨h, e⟩ | ⟨h, h', e⟩ | ⟨h, h', h'', e⟩ |
      ⟨h, h', h'', rem, hrem, ⟨hq, e⟩ | ⟨hq1, hq2, hq3, e⟩ | ⟨hq1, hq2, hq3, e⟩⟩
    all_goals
      rw [e]
      dsimp only
      omega

/-! ## Hysteresis at `NormalVolumeMax` -/

/-- One `+1` step of a plugin held at `NormalVolumeMax` below `OverMaxVolumeMax`: with two or
more units of buffer left the volume is held and one unit is used up; with one unit or none
the volume moves on and the buffer is empty. -/
theorem stepRelative_plus_one_at_normalMax (vs : volumeSettings) (vp : volumePlugin)
    (hom : vs.NormalVolumeMax < vs.OverMaxVolumeMax) (hnm : 0 ≤ vs.NormalVolumeMax)
    (hcur : vp.currentVolume = vs.NormalVolumeMax) (hnb : 0 ≤ vp.normalBuffer) :
    (2 ≤ vp.normalBuffer →
      (stepRelative vs vp 1 1).currentVolume = vs.NormalVolumeMax ∧
      (stepRelative vs vp 1 1).normalBuffer = vp.normalBuffer - 1) ∧
    (vp.normalBuffer ≤ 1 →
      (stepRelative vs vp 1 1).currentVolume = vs.NormalVolumeMax + 1 ∧
      (stepRelative vs vp 1 1).normalBuffer = 0) := by
  have hr := reachesNormalMax_iff vs vp.currentVolume (vp.currentVolume + 1 * 1)
  have hnr : ¬reachesNormalMax vs vp.currentVolume (vp.currentVolume + 1 * 1) = true := by
    rw [hr]
    omega
  have hc := calcNewVolume_cases vs vp 1 1
  rw [if_neg hnr] at hc
  rw [stepRelative_currentVolume, stepRelative_normalBuffer]
  simp only [one_mul, mul_one] at hc
  rcases hc with ⟨h, e⟩ | ⟨h, h', e⟩ | ⟨h, h', h'', e⟩ |
    ⟨h, h', h'', rem, hrem, ⟨hq, e⟩ | ⟨hq1, hq2, hq3, e⟩ | ⟨hq1, hq2, hq3, e⟩⟩
  all_goals
    rw [e]
    dsimp only
    omega

/-- The `+1` step from `NormalVolumeMax - 1`: the volume reaches `NormalVolumeMax` and the
stored buffer is `BufferSize`, whatever it was. -/
theorem stepRelative_plus_one_reaching (vs : volumeSettings) (vp : volumePlugin)
    (hbs : 0 ≤ vs.BufferSize) (hnm : 0 ≤ vs.NormalVolumeMax)
    (hom : vs.NormalVolumeMax < vs.OverMaxVolumeMax)
    (hcur : vp.currentVolume = vs.NormalVolumeMax - 1) :
    (stepRelative vs vp 1 1).currentVolume = vs.NormalVolumeMax ∧
    (stepRelative vs vp 1 1).normalBuffer = vs.BufferSize := by
  have hr := reachesNormalMax_iff vs vp.currentVolume (vp.currentVolume + 1 * 1)
  have hnr : reachesNormalMax vs vp.currentVolume (vp.currentVolume + 1 * 1) = true := by
    rw [hr]
    omega
  have hc := calcNewVolume_cases vs vp 1 1
  rw [if_pos hnr] at hc
  rw [stepRelative_currentVolume, stepRelative_normalBuffer]
  simp only [one_mul, mul_one] at hc
  rcases hc with ⟨h, e⟩ | ⟨h, h', e⟩ | ⟨h, h', h'', e⟩ |
    ⟨h, h', h'', rem, hrem, ⟨hq, e⟩ | ⟨hq1, hq2, hq3, e⟩ | ⟨hq1, hq2, hq3, e⟩⟩
  all_goals
    rw [e]
    dsimp only
    omega

/-- The state after `k` successive `+1` steps from `NormalVolumeMax - 1`, for
`1 ≤ k ≤ max BufferSize 1`. -/
theorem plusSteps_held (vs : volumeSettings) (vp : volumePlugin)
    (hbs : 0 ≤ vs.BufferSize) (hnm : 0 ≤ vs.NormalVolumeMax)
    (hom : vs.NormalVolumeMax < vs.OverMaxVolumeMax)
    (hcur : vp.currentVolume = vs.NormalVolumeMax - 1) (k : Nat) :
    1 ≤ k → (k : Int) ≤ max vs.BufferSize 1 →
      (plusSteps vs vp k).currentVolume = vs.NormalVolumeMax ∧
      (plusSteps vs vp k).normalBuffer = vs.BufferSize - k + 1 := by
  induction k with
  | zero => intro h; omega
  | succ k ih =>
    intro _ hk
    rcases Nat.eq_zero_or_pos k with rfl | hpos
    · -- the step that reaches NormalVolumeMax
      have h3 := stepRelative_plus_one_reaching vs vp hbs hnm hom hcur
      show (stepRelative vs vp 1 1).currentVolume = _ ∧ (stepRelative vs vp 1 1).normalBuffer = _
      omega
    · obtain ⟨ih1, ih2⟩ := ih hpos (by omega)
      have hs := (stepRelative_plus_one_at_normalMax vs (plusSteps vs vp k) hom hnm ih1
        (by omega)).1 (by omega)
      show (stepRelative vs (plusSteps vs vp k) 1 1).currentVolume = _ ∧
        (stepRelative vs (plusSteps vs vp k) 1 1).normalBuffer = _
      omega

/-- Successive `+1` steps from `NormalVolumeMax - 1`, computed over the unbounded integers:
with `BufferSize = B ≥ 0` and `NormalVolumeMax < OverMaxVolumeMax` they report
`NormalVolumeMax` on the step that reaches it and on each of the following steps up to step
number `max B 1`, and report `NormalVolumeMax + 1` on the next step. -/
theorem plusSteps_held_then_released (vs : volumeSettings) (vp : volumePlugin)
    (hbs : 0 ≤ vs.BufferSize) (hnm : 0 ≤ vs.NormalVolumeMax)
    (hom : vs.NormalVolumeMax < vs.OverMaxVolumeMax)
    (hcur : vp.currentVolume = vs.NormalVolumeMax - 1) :
    (∀ k : Nat, 1 ≤ k → (k : Int) ≤ max vs.BufferSize 1 →
      (plusSteps vs vp k).currentVolume = vs.NormalVolumeMax) ∧
    (plusSteps vs vp ((max vs.BufferSize 1).toNat + 1)).currentVolume =
      vs.NormalVolumeMax + 1 := by
  refine ⟨fun k h1 h2 => (plusSteps_held vs vp hbs hnm hom hcur k h1 h2).1, ?_⟩
  obtain ⟨h1, h2⟩ := plusSteps_held vs vp hbs hnm hom hcur (max vs.BufferSize 1).toNat
    (by omega) (by omega)
  exact ((stepRelative_plus_one_at_normalMax vs _ hom hnm h1 (by omega)).2 (by omega)).1

/-- C4, the claim as stated fails: with `NormalVolumeMax = 100`, `BufferSize = 2` and
`currentVolume = 99`, four successive `+1` steps report 100, 100, 101, 102, not
100, 100, 100, 101 (with 64-bit arithmetic and over the unbounded integers alike); four
successive requests `+1` through `exec` return these volumes. -/
theorem plusSteps_reports_at_bufferSize_two :
    [1, 2, 3, 4].map (fun k => (plusSteps64 exampleSettings (pluginAt 99 0) k).currentVolume)
      = [100, 100, 101, 102] ∧
    [1, 2, 3, 4].map (fun k => (plusSteps exampleSettings (pluginAt 99 0) k).currentVolume)
      = [100, 100, 101, 102] ∧
    [1, 2, 3, 4].map (fun k => (plusSteps exampleSettings (pluginAt 99 0) k).currentVolume)
      ≠ [100, 100, 100, 101] ∧
    (execAll (exampleWorld (pluginAt 99 0))
      (List.replicate 4 (exampleEnv (some "+1") ("", none)))).1 =
      ["NewVolume=100, normalBuffer=2", "NewVolume=100, normalBuffer=1",
        "NewVolume=101, normalBuffer=0", "NewVolume=102, normalBuffer=0"] := by
  decide


/-! ## Relative and absolute requests through `exec` -/

theorem FindStringSubmatch_sign (c : Char) (ds : List Char) (hc : c = '+' ∨ c = '-')
    (hds : matchDigits13 ds = true) :
    FindStringSubmatch (String.mk (c :: ds)) =
      [String.mk (c :: ds), String.mk [c], String.mk ds] := by
  rcases hc with rfl | rfl <;> simp [FindStringSubmatch, hds]

theorem FindStringSubmatch_digits (ds : List Char) (hds : matchDigits13 ds = true) :
    FindStringSubmatch (String.mk ds) = [String.mk ds, "", String.mk ds] := by
  obtain ⟨h1, _, hall⟩ := (matchDigits13_iff ds).1 hds
  match ds, h1, hall, hds with
  | c :: rest, _, hall, hds =>
    have hc := isDigit_not_sign (hall c (by simp))
    unfold FindStringSubmatch
    split
    · rename_i heq
      simp only [String.data, List.cons.injEq] at heq
      exact absurd heq.1 hc.1
    · rename_i heq
      simp only [String.data, List.cons.injEq] at heq
      exact absurd heq.1 hc.2
    · simp [hds]

/-- What `exec` does on a relative request: sign `c`, digits `ds`. -/
theorem exec_relative_eq (env : Env) (w : World) (c : Char) (ds : List Char)
    (hinit : w.vp.hasInitialized = true) (hc : c = '+' ∨ c = '-')
    (hds : matchDigits13 ds = true) (hreq : env.requests (String.mk (c :: ds))) :
    exec env w = execUpdate env
      { w with
        vp := (stepRelative w.vs w.vp (if c = '+' then 1 else -1) (strconv.digitsValue ds)) } := by
  unfold Env.requests at hreq
  unfold exec
  simp only [hinit, Bool.not_true, Bool.false_eq_true, if_false, hreq,
    FindStringSubmatch_sign c ds hc hds, Atoi_digits ds hds]
  rcases hc with rfl | rfl
  · rfl
  · rfl

/-- What `exec` does on an absolute request with digits `ds`. -/
theorem exec_absolute_eq (env : Env) (w : World) (ds : List Char)
    (hinit : w.vp.hasInitialized = true) (hds : matchDigits13 ds = true)
    (hreq : env.requests (String.mk ds)) :
    exec env w =
      if strconv.digitsValue ds > w.vs.OverMaxVolumeMax then
        ("Invalid absolute NewVolume: " ++
          ("Volume [" ++ strconv.Itoa (strconv.digitsValue ds)
            ++ "] cannot be larger than " ++ strconv.Itoa w.vs.OverMaxVolumeMax), w)
      else execUpdate env
        { w with vp := { w.vp with currentVolume := strconv.digitsValue ds, normalBuffer := 0 } } := by
  unfold Env.requests at hreq
  unfold exec
  simp only [hinit, Bool.not_true, Bool.false_eq_true, if_false, hreq,
    FindStringSubmatch_digits ds hds, verifyVolumeString_digits w.vs ds hds]
  by_cases hgt : strconv.digitsValue ds > w.vs.OverMaxVolumeMax
  · simp [hgt]
  · simp [hgt]

theorem plusSteps_succ_front (vs : volumeSettings) (vp : volumePlugin) (n : Nat) :
    plusSteps vs vp (n + 1) = plusSteps vs (stepRelative vs vp 1 1) n := by
  induction n with
  | zero => rfl
  | succ n ih =>
    show stepRelative vs (plusSteps vs vp (n + 1)) 1 1 = _
    rw [ih]
    rfl

/-- Successive requests `+1` through `exec` perform `plusSteps` on the plugin. -/
theorem execAll_plus_one (envs : List Env) (w : World) (hinit : w.vp.hasInitialized = true)
    (hreq : ∀ env ∈ envs, env.requests "+1") :
    (execAll w envs).2.vp = plusSteps w.vs w.vp envs.length ∧
    (execAll w envs).2.vs = w.vs := by
  induction envs generalizing w with
  | nil => exact ⟨rfl, rfl⟩
  | cons env envs ih =>
    have he := exec_relative_eq env w '+' ['1'] hinit (Or.inl rfl) (by decide)
      (hreq env (by simp))
    have hd : strconv.digitsValue ['1'] = 1 := by decide
    rw [hd, if_pos rfl] at he
    have hvp : (exec env w).2.vp = stepRelative w.vs w.vp 1 1 := by
      rw [he, execUpdate_vp]
    have hvs : (exec env w).2.vs = w.vs := (exec_cases env w hinit).1
    have hinit2 : (exec env w).2.vp.hasInitialized = true := by
      rw [hvp]
      have := calcNewVolume_cases w.vs w.vp 1 1
      rcases this with ⟨h, e⟩ | ⟨h, h', e⟩ | ⟨h, h', h'', e⟩ |
        ⟨h, h', h'', rem, hrem, ⟨hq, e⟩ | ⟨hq1, hq2, hq3, e⟩ | ⟨hq1, hq2, hq3, e⟩⟩
      all_goals
        unfold stepRelative
        rw [e]
        exact hinit
    obtain ⟨ih1, ih2⟩ := ih (exec env w).2 hinit2 (fun e he => hreq e (by simp [he]))
    show (execAll (exec env w).2 envs).2.vp = _ ∧ (execAll (exec env w).2 envs).2.vs = _
    rw [ih1, ih2, hvs, hvp, List.length_cons, plusSteps_succ_front]
    exact ⟨rfl, rfl⟩

/-- The `-1` step of a plugin held at `NormalVolumeMax` with a positive buffer: the volume
goes down by one and the buffer is cleared. -/
theorem calcNewVolume_minus_one_at_normalMax (vs : volumeSettings) (vp : volumePlugin)
    (hnm : 1 ≤ vs.NormalVolumeMax) (hom : vs.NormalVolumeMax ≤ vs.OverMaxVolumeMax)
    (hcur : vp.currentVolume = vs.NormalVolumeMax) (hnb : 0 < vp.normalBuffer) :
    (calcNewVolume vs vp (-1) 1).1 = vp.currentVolume + -1 * 1 ∧
    (calcNewVolume vs vp (-1) 1).2.normalBuffer = 0 := by
  have hr := reachesNormalMax_iff vs vp.currentVolume (vp.currentVolume + -1 * 1)
  have hnr : ¬reachesNormalMax vs vp.currentVolume (vp.currentVolume + -1 * 1) = true := by
    rw [hr]
    omega
  have hc := calcNewVolume_cases vs vp (-1) 1
  rw [if_neg hnr] at hc
  simp only [neg_mul, one_mul, mul_neg, mul_one] at hc ⊢
  rcases hc with ⟨h, e⟩ | ⟨h, h', e⟩ | ⟨h, h', h'', e⟩ |
    ⟨h, h', h'', rem, hrem, ⟨hq, e⟩ | ⟨hq1, hq2, hq3, e⟩ | ⟨hq1, hq2, hq3, e⟩⟩
  all_goals
    rw [e]
    dsimp only
    omega

/-- C5: under settings with `1 ≤ NormalVolumeMax ≤ OverMaxVolumeMax` and `BufferSize ≥ 0`, in
every reachable state whose `normalBuffer` is positive (armed in the `+` direction), however
much of it is left, a single relative `-1` request commits `currentVolume - 1` at once and
leaves the stored `normalBuffer` at `0`. -/
theorem exec_minus_one_clears_buffer (env : Env) (w : World)
    (hnm : 1 ≤ w.vs.NormalVolumeMax) (hom : w.vs.NormalVolumeMax ≤ w.vs.OverMaxVolumeMax)
    (hbs : 0 ≤ w.vs.BufferSize) (hreach : Reachable w.vs w.vp)
    (harmed : 0 < w.vp.normalBuffer) (hreq : env.requests "-1") :
    (exec env w).2.vp.currentVolume = w.vp.currentVolume - 1 ∧
    (exec env w).2.vp.normalBuffer = 0 ∧
    (calcNewVolume w.vs w.vp (-1) 1).1 = w.vp.currentVolume - 1 := by
  obtain ⟨a, i0, i1, i2, i3, i4, i5, i6⟩ := Reachable_Inv hnm hom hbs hreach
  have hcur := i3 (by omega)
  have h2 := calcNewVolume_minus_one_at_normalMax w.vs w.vp hnm hom hcur harmed
  have he := exec_relative_eq env w '-' ['1'] i0 (Or.inr rfl) (by decide) hreq
  rw [he, execUpdate_vp]
  have hd : strconv.digitsValue ['1'] = 1 := by decide
  simp only [hd, Char.reduceEq, if_false]
  rw [stepRelative_currentVolume, stepRelative_normalBuffer]
  omega


/-- The example plugin held at 100 with two units of buffer is reachable: it is the state
after the request `+1` at volume 99. -/
theorem reachable_example_armed : Reachable exampleSettings (pluginAt 100 2) :=
  Reachable.step (exampleEnv (some "+1") ("", none)) (exampleWorld (pluginAt 99 0)) rfl
    (Reachable.init _ rfl rfl (by decide) (by decide))

theorem exec_minus_one_clears_buffer_witness :
    (Reachable exampleSettings (pluginAt 100 2) ∧ 0 < (pluginAt 100 2).normalBuffer) ∧
    (exec (exampleEnv (some "-1") ("", none))
      (exampleWorld (pluginAt 100 2))).2.vp.currentVolume = 100 - 1 ∧
    (exec (exampleEnv (some "-1") ("", none))
      (exampleWorld (pluginAt 100 2))).2.vp.normalBuffer = 0 ∧
    (calcNewVolume exampleSettings (pluginAt 100 2) (-1) 1).1 = 100 - 1 :=
  ⟨⟨reachable_example_armed, by decide⟩,
    exec_minus_one_clears_buffer (exampleEnv (some "-1") ("", none))
      (exampleWorld (pluginAt 100 2)) (by decide) (by decide) (by decide)
      reachable_example_armed (by decide) rfl⟩

/-- The clamp computed over the unbounded integers: for a relative step with `delta ≠ 0`
(settings with `OverMaxVolumeMax ≥ 0`), if `currentVolume + delta < 0` the result is `0` and
if `currentVolume + delta > OverMaxVolumeMax` the result is `OverMaxVolumeMax`; in both cases
the stored `normalBuffer` after the step is `0`. -/
theorem calcNewVolume_clamps (vs : volumeSettings) (vp : volumePlugin)
    (direction stepSize : Int) (hom : 0 ≤ vs.OverMaxVolumeMax)
    (hdelta : direction * stepSize ≠ 0) :
    (vp.currentVolume + direction * stepSize < 0 →
      (calcNewVolume vs vp direction stepSize).1 = 0 ∧
      (calcNewVolume vs vp direction stepSize).2.normalBuffer = 0) ∧
    (vp.currentVolume + direction * stepSize > vs.OverMaxVolumeMax →
      (calcNewVolume vs vp direction stepSize).1 = vs.OverMaxVolumeMax ∧
      (calcNewVolume vs vp direction stepSize).2.normalBuffer = 0) := by
  rcases calcNewVolume_cases vs vp direction stepSize with ⟨h, e⟩ | ⟨h, h', e⟩ |
    ⟨h, h', h'', e⟩ | ⟨h, h', h'', _⟩
  · exact absurd h hdelta
  · rw [e]
    dsimp only
    omega
  · rw [e]
    dsimp only
    omega
  · omega

/-- C6, the claim as stated fails: at volume 100 with `normalBuffer = 2` (a reachable state of
the example settings) the step `+999` is clamped to `OverMaxVolumeMax = 200` and the stored
`normalBuffer` afterwards is `0`, not the `2` it was before (with 64-bit arithmetic and over
the unbounded integers alike); the request `+999` through `exec` gives the same. -/
theorem calcNewVolume_clamp_resets_buffer :
    (pluginAt 100 2).currentVolume + 1 * 999 > exampleSettings.OverMaxVolumeMax ∧
    calcNewVolume64 exampleSettings (pluginAt 100 2) 1 999 = (200, pluginAt 100 0) ∧
    (calcNewVolume64 exampleSettings (pluginAt 100 2) 1 999).2.normalBuffer ≠
      (pluginAt 100 2).normalBuffer ∧
    (calcNewVolume exampleSettings (pluginAt 100 2) 1 999).1 = 200 ∧
    (calcNewVolume exampleSettings (pluginAt 100 2) 1 999).2.normalBuffer = 0 ∧
    (calcNewVolume exampleSettings (pluginAt 100 2) 1 999).2.normalBuffer ≠
      (pluginAt 100 2).normalBuffer ∧
    (exec (exampleEnv (some "+999") ("", none)) (exampleWorld (pluginAt 100 2))).2.vp =
      pluginAt 200 0 := by
  decide

theorem calcNewVolume_zero (vs : volumeSettings) (vp : volumePlugin) (direction : Int) :
    calcNewVolume vs vp direction 0 = (vp.currentVolume, vp) := by
  unfold calcNewVolume
  simp

theorem stepRelative_zero (vs : volumeSettings) (vp : volumePlugin) (direction : Int) :
    stepRelative vs vp direction 0 = vp := by
  unfold stepRelative
  rw [calcNewVolume_zero]

theorem digitsValue_zeros (k : Nat) : strconv.digitsValue (List.replicate k '0') = 0 := by
  induction k with
  | zero => rfl
  | succ k ih =>
    unfold strconv.digitsValue at ih ⊢
    rw [List.replicate_succ, List.foldl_cons]
    simpa using ih

theorem matchDigits13_zeros (k : Nat) (h1 : 1 ≤ k) (h3 : k ≤ 3) :
    matchDigits13 (List.replicate k '0') = true := by
  rw [matchDigits13_iff]
  refine ⟨by simpa using h1, by simpa using h3, ?_⟩
  intro c hc
  rw [List.eq_of_mem_replicate hc]
  decide

/-- C7: a relative request whose magnitude is zero (a sign followed by one to three zeros:
`+0`, `-0`, `+00`, ..., `-000`) leaves an initialized plugin as it was: `currentVolume`,
`normalBuffer` (neither consumed nor reset) and the settings are unchanged; the volume is
still handed to the system, and when that succeeds the request reports success with the
unchanged volume and notifies the volume bar. -/
theorem exec_zero_step_is_noop (env : Env) (w : World) (sign : Char) (k : Nat)
    (hinit : w.vp.hasInitialized = true) (hsign : sign = '+' ∨ sign = '-')
    (hk1 : 1 ≤ k) (hk3 : k ≤ 3)
    (hreq : env.requests (String.mk (sign :: List.replicate k '0'))) :
    (exec env w).2.vp = w.vp ∧ (exec env w).2.vs = w.vs ∧
    ((updateSystemVolume env w).1 = none →
      (exec env w).1 = "NewVolume=" ++ strconv.Itoa w.vp.currentVolume
        ++ ", normalBuffer=" ++ strconv.Itoa w.vp.normalBuffer ∧
      (exec env w).2.pushed = w.pushed ++ [.vbCommandUpdateVolume]) := by
  have he := exec_relative_eq env w sign _ hinit hsign (matchDigits13_zeros k hk1 hk3) hreq
  rw [digitsValue_zeros, stepRelative_zero] at he
  have hw : ({ w with vp := w.vp } : World) = w := rfl
  rw [hw] at he
  rw [he]
  refine ⟨execUpdate_vp env w, execUpdate_vs env w, fun hok => ?_⟩
  rw [execUpdate_eq, hok]
  exact ⟨rfl, rfl⟩

theorem exec_zero_step_is_noop_witness :
    ((exampleWorld (pluginAt 100 2)).vp.hasInitialized = true ∧
      (exampleEnv (some "-00") ("", none)).requests (String.mk ('-' :: List.replicate 2 '0'))) ∧
    (exec (exampleEnv (some "-00") ("", none)) (exampleWorld (pluginAt 100 2))).2.vp =
      pluginAt 100 2 ∧
    (exec (exampleEnv (some "-00") ("", none)) (exampleWorld (pluginAt 100 2))).2.vs =
      exampleSettings ∧
    ((updateSystemVolume (exampleEnv (some "-00") ("", none))
        (exampleWorld (pluginAt 100 2))).1 = none →
      (exec (exampleEnv (some "-00") ("", none)) (exampleWorld (pluginAt 100 2))).1 =
        "NewVolume=" ++ strconv.Itoa 100 ++ ", normalBuffer=" ++ strconv.Itoa 2 ∧
      (exec (exampleEnv (some "-00") ("", none)) (exampleWorld (pluginAt 100 2))).2.pushed =
        [] ++ [.vbCommandUpdateVolume]) :=
  ⟨⟨rfl, rfl⟩, exec_zero_step_is_noop (exampleEnv (some "-00") ("", none))
    (exampleWorld (pluginAt 100 2)) '-' 2 rfl (Or.inr rfl) (by decide) (by decide) rfl⟩


/-! ## The request grammar stated with `String.toNat?` and `Char.isDigit` -/

theorem isDigit_eq (c : Char) : strconv.isDigit c = c.isDigit := by
  rw [Bool.eq_iff_iff]
  simp only [strconv.isDigit, Char.isDigit, Bool.and_eq_true, decide_eq_true_eq, Char.toNat]
  exact Iff.rfl

theorem isEmpty_false_iff (s : String) : s.isEmpty = false ↔ 1 ≤ s.data.length := by
  obtain ⟨cs⟩ := s
  cases cs with
  | nil => simp [String.isEmpty, String.endPos, String.utf8ByteSize]
  | cons c cs =>
    have := Char.utf8Size_pos c
    simp [String.isEmpty, String.endPos, String.utf8ByteSize, String.utf8ByteSize.go,
      String.Pos.ext_iff]
    omega


theorem digitsValue_cast (cs : List Char) (hall : ∀ c ∈ cs, strconv.isDigit c = true)
    (a : Nat) :
    cs.foldl (fun n ch => n * 10 + ((ch.toNat : Int) - 48)) (a : Int) =
      ((cs.foldl (fun n c => n * 10 + (c.toNat - '0'.toNat)) a : Nat) : Int) := by
  induction cs generalizing a with
  | nil => rfl
  | cons c cs ih =>
    have hc := isDigit_bounds (hall c (by simp))
    have h0 : '0'.toNat = 48 := rfl
    rw [List.foldl_cons, List.foldl_cons, ← ih (fun d hd => hall d (by simp [hd]))]
    congr 1
    rw [h0]
    omega

/-- A string of at most three characters that `String.toNat?` reads as the number `v` is one
to three decimal digits whose value is `v`. -/
theorem toNat?_digits (s : String) (v : Nat) (hlen : s.length ≤ 3)
    (hval : s.toNat? = some v) :
    matchDigits13 s.data = true ∧ strconv.digitsValue s.data = v := by
  unfold String.toNat? at hval
  split at hval
  · rename_i hnat
    simp only [String.isNat, Bool.and_eq_true, Bool.not_eq_true', String.all_eq,
      List.all_eq_true] at hnat
    obtain ⟨hne, hall⟩ := hnat
    have hall2 : ∀ c ∈ s.data, strconv.isDigit c = true := fun c hc => by
      rw [isDigit_eq]
      exact hall c hc
    refine ⟨(matchDigits13_iff s.data).2 ⟨(isEmpty_false_iff s).1 hne, hlen, hall2⟩, ?_⟩
    simp only [Option.some.injEq, String.foldl_eq] at hval
    have := digitsValue_cast s.data hall2 0
    rw [hval] at this
    exact this
  · cases hval

/-- Conversely, `String.toNat?` reads one to three decimal digits as their value. -/
theorem toNat?_of_digits (ds : List Char) (hds : matchDigits13 ds = true) :
    (String.mk ds).toNat? = some (strconv.digitsValue ds).toNat := by
  obtain ⟨h1, _, hall⟩ := (matchDigits13_iff ds).1 hds
  have hnat : (String.mk ds).isNat = true := by
    simp only [String.isNat, Bool.and_eq_true, Bool.not_eq_true', String.all_eq,
      List.all_eq_true]
    refine ⟨(isEmpty_false_iff _).2 h1, fun c hc => ?_⟩
    rw [← isDigit_eq]
    exact hall c hc
  unfold String.toNat?
  rw [if_pos hnat, String.foldl_eq]
  have := digitsValue_cast ds hall 0
  unfold strconv.digitsValue
  simp only [Nat.cast_zero] at this
  rw [this]
  rfl

/-- C8: on an initialized plugin (any `currentVolume`, any `normalBuffer`), an unsigned request
of one to three digits whose value `v` is at most `OverMaxVolumeMax` sets `currentVolume = v`
and `normalBuffer = 0`, whatever the system answers; the same request a second time leaves
the same state. -/
theorem exec_absolute_idempotent (env1 env2 : Env) (w : World) (s : String) (v : Nat)
    (hinit : w.vp.hasInitialized = true) (hlen : s.length ≤ 3) (hval : s.toNat? = some v)
    (hle : (v : Int) ≤ w.vs.OverMaxVolumeMax)
    (hreq1 : env1.requests s) (hreq2 : env2.requests s) :
    (exec env1 w).2.vp = { w.vp with currentVolume := v, normalBuffer := 0 } ∧
    (exec env2 (exec env1 w).2).2.vp = (exec env1 w).2.vp := by
  obtain ⟨hds, hv⟩ := toNat?_digits s v hlen hval
  have hs : String.mk s.data = s := rfl
  have e1 := exec_absolute_eq env1 w s.data hinit hds (by rw [hs]; exact hreq1)
  rw [hv, if_neg (by omega)] at e1
  have hvp : (exec env1 w).2.vp = { w.vp with currentVolume := v, normalBuffer := 0 } := by
    rw [e1, execUpdate_vp]
  have hvs : (exec env1 w).2.vs = w.vs := (exec_cases env1 w hinit).1
  have hinit2 : (exec env1 w).2.vp.hasInitialized = true := by
    rw [hvp]
    exact hinit
  have e2 := exec_absolute_eq env2 (exec env1 w).2 s.data hinit2 hds (by rw [hs]; exact hreq2)
  rw [hv, hvs, if_neg (by omega)] at e2
  refine ⟨hvp, ?_⟩
  rw [e2, execUpdate_vp, hvp]

theorem exec_absolute_idempotent_witness :
    ((exampleWorld (pluginAt 100 2)).vp.hasInitialized = true ∧ "150".length ≤ 3 ∧
      "150".toNat? = some 150 ∧ ((150 : Nat) : Int) ≤ exampleSettings.OverMaxVolumeMax) ∧
    (exec (exampleEnv (some "150") ("", none)) (exampleWorld (pluginAt 100 2))).2.vp =
      { pluginAt 100 2 with currentVolume := (150 : Nat), normalBuffer := 0 } ∧
    (exec (exampleEnv (some "150") ("failed", some "exit status 1"))
      (exec (exampleEnv (some "150") ("", none)) (exampleWorld (pluginAt 100 2))).2).2.vp =
      (exec (exampleEnv (some "150") ("", none)) (exampleWorld (pluginAt 100 2))).2.vp :=
  ⟨⟨rfl, by decide, toNat?_of_digits ['1', '5', '0'] (by decide), by decide⟩,
    exec_absolute_idempotent (exampleEnv (some "150") ("", none))
      (exampleEnv (some "150") ("failed", some "exit status 1")) (exampleWorld (pluginAt 100 2))
      "150" 150 rfl (by decide) (toNat?_of_digits ['1', '5', '0'] (by decide)) (by decide)
      rfl rfl⟩


/-- The embedded regular expression accepts exactly the strings of the request grammar. -/
theorem FindStringSubmatch_ne_nil_iff (s : String) :
    FindStringSubmatch s ≠ [] ↔ MatchesGrammar s := by
  constructor
  · intro h
    have key : ∀ (sign rest : List Char), s.data = sign ++ rest →
        (sign = [] ∨ sign = ['+'] ∨ sign = ['-']) → matchDigits13 rest = true →
        MatchesGrammar s := by
      intro sign rest hs hsign hm
      obtain ⟨h1, h3, hall⟩ := (matchDigits13_iff rest).1 hm
      refine ⟨sign, rest, ?_, hsign, h1, h3, fun c hc => ?_⟩
      · rw [← hs]
      · rw [← isDigit_eq]
        exact hall c hc
    unfold FindStringSubmatch at h
    split at h
    · rename_i rest heq
      by_cases hm : matchDigits13 rest = true
      · exact key ['+'] rest heq (Or.inr (Or.inl rfl)) hm
      · simp [hm] at h
    · rename_i rest heq
      by_cases hm : matchDigits13 rest = true
      · exact key ['-'] rest heq (Or.inr (Or.inr rfl)) hm
      · simp [hm] at h
    · by_cases hm : matchDigits13 s.data = true
      · exact key [] s.data rfl (Or.inl rfl) hm
      · simp [hm] at h
  · rintro ⟨sign, digits, rfl, hsign, h1, h3, hall⟩
    have hm : matchDigits13 digits = true :=
      (matchDigits13_iff digits).2 ⟨h1, h3, fun c hc => by rw [isDigit_eq]; exact hall c hc⟩
    rcases hsign with rfl | rfl | rfl
    · rw [List.nil_append, FindStringSubmatch_digits digits hm]
      simp
    · rw [List.singleton_append, FindStringSubmatch_sign '+' digits (Or.inl rfl) hm]
      simp
    · rw [List.singleton_append, FindStringSubmatch_sign '-' digits (Or.inr rfl) hm]
      simp

/-- C9: on an initialized plugin a request that is missing `NewVolume`, or does not match the
grammar `^([+-]?)(\d{1,3})$`, or is an unsigned value greater than `OverMaxVolumeMax`, makes
`exec` return the error text of its case and leave everything as it was: `currentVolume`,
`normalBuffer`, the settings, and the records of commands handed to the system and to the
volume bar (neither the backend nor the overlay is called). -/
theorem exec_rejects_without_mutation (env : Env) (w : World)
    (hinit : w.vp.hasInitialized = true) :
    (env.getQueryVal "NewVolume" = none → exec env w = ("Missing NewVolume", w)) ∧
    (∀ s, env.requests s → ¬MatchesGrammar s → exec env w = (invalidFormatText, w)) ∧
    (∀ (s : String) (v : Nat), env.requests s → s.length ≤ 3 → s.toNat? = some v →
      w.vs.OverMaxVolumeMax < v →
      exec env w = ("Invalid absolute NewVolume: " ++
        ("Volume [" ++ strconv.Itoa v ++ "] cannot be larger than "
          ++ strconv.Itoa w.vs.OverMaxVolumeMax), w)) := by
  refine ⟨fun hnone => ?_, fun s hreq hng => ?_, fun s v hreq hlen hval hgt => ?_⟩
  · unfold exec
    simp only [hinit, Bool.not_true, Bool.false_eq_true, if_false, hnone]
  · have hnil : FindStringSubmatch s = [] := by
      by_contra hne
      exact hng ((FindStringSubmatch_ne_nil_iff s).1 hne)
    unfold Env.requests at hreq
    unfold exec
    simp only [hinit, Bool.not_true, Bool.false_eq_true, if_false, hreq, hnil]
  · obtain ⟨hds, hv⟩ := toNat?_digits s v hlen hval
    have hs : String.mk s.data = s := rfl
    have e := exec_absolute_eq env w s.data hinit hds (by rw [hs]; exact hreq)
    rw [hv, if_pos (by omega)] at e
    exact e

theorem exec_rejects_without_mutation_witness :
    (exampleWorld (pluginAt 100 2)).vp.hasInitialized = true ∧
    exec (exampleEnv none ("", none)) (exampleWorld (pluginAt 100 2)) =
      ("Missing NewVolume", exampleWorld (pluginAt 100 2)) ∧
    exec (exampleEnv (some "201") ("", none)) (exampleWorld (pluginAt 100 2)) =
      ("Invalid absolute NewVolume: Volume [201] cannot be larger than 200",
        exampleWorld (pluginAt 100 2)) :=
  ⟨rfl, (exec_rejects_without_mutation (exampleEnv none ("", none))
    (exampleWorld (pluginAt 100 2)) rfl).1 rfl,
    (exec_rejects_without_mutation (exampleEnv (some "201") ("", none))
      (exampleWorld (pluginAt 100 2)) rfl).2.2 "201" 201 rfl (by decide)
      (toNat?_of_digits ['2', '0', '1'] (by decide)) (by decide)⟩

/-- C10: under settings with `1 ≤ NormalVolumeMax ≤ OverMaxVolumeMax` and `BufferSize ≥ 0`,
every state reachable from an initial state with `normalBuffer = 0` by any sequence of
relative, absolute and rejected requests has `|normalBuffer| ≤ BufferSize + 1`, and a non-zero
`normalBuffer` has the sign of the direction (`+1` or `-1`) of the last step that armed it. -/
theorem reachable_normalBuffer_bounded (vs : volumeSettings) (vp : volumePlugin)
    (armedBy : Int) (hnm : 1 ≤ vs.NormalVolumeMax)
    (hom : vs.NormalVolumeMax ≤ vs.OverMaxVolumeMax) (hbs : 0 ≤ vs.BufferSize)
    (hreach : ReachableArmed vs vp armedBy) :
    |vp.normalBuffer| ≤ vs.BufferSize + 1 ∧
    (vp.normalBuffer ≠ 0 →
      (armedBy = 1 ∨ armedBy = -1) ∧ Int.sign vp.normalBuffer = armedBy) := by
  obtain ⟨_, _, _, _, i4, i5, i6⟩ := ReachableArmed_Inv hnm hom hbs hreach
  refine ⟨abs_le.2 ⟨by omega, by omega⟩, fun hne => ⟨(i6 hne).1, ?_⟩⟩
  obtain ⟨ha, hs⟩ := i6 hne
  rcases lt_or_gt_of_ne hne with hneg | hpos
  · rw [Int.sign_eq_neg_one_of_neg hneg]
    omega
  · rw [Int.sign_eq_one_of_pos hpos]
    omega

/-- The example plugin held at 100 with two units of buffer is reachable, armed by a `+1`
step. -/
theorem reachableArmed_example : ReachableArmed exampleSettings (pluginAt 100 2) 1 :=
  ReachableArmed.step (exampleEnv (some "+1") ("", none)) (exampleWorld (pluginAt 99 0)) 0 rfl
    (ReachableArmed.init _ rfl rfl (by decide) (by decide))

theorem reachable_normalBuffer_bounded_witness :
    (1 ≤ exampleSettings.NormalVolumeMax ∧
      exampleSettings.NormalVolumeMax ≤ exampleSettings.OverMaxVolumeMax ∧
      0 ≤ exampleSettings.BufferSize ∧ ReachableArmed exampleSettings (pluginAt 100 2) 1) ∧
    |(pluginAt 100 2).normalBuffer| ≤ exampleSettings.BufferSize + 1 ∧
    ((pluginAt 100 2).normalBuffer ≠ 0 →
      ((1 : Int) = 1 ∨ (1 : Int) = -1) ∧ Int.sign (pluginAt 100 2).normalBuffer = 1) :=
  ⟨⟨by decide, by decide, by decide, reachableArmed_example⟩,
    reachable_normalBuffer_bounded exampleSettings (pluginAt 100 2) 1 (by decide) (by decide)
      (by decide) reachableArmed_example⟩


/-! ## Exactness of the embedding for 64-bit integers -/

theorem wrap64_eq (x : Int) (h1 : -(2 ^ 63) ≤ x) (h2 : x < 2 ^ 63) : wrap64 x = x := by
  unfold wrap64
  omega

/-- Where the embedding over `Int` is exact: for a direction `+1` or `-1`, a step size `≥ 0`
and a volume `≥ 0`, `calcNewVolume` agrees with its 64-bit version as long as
`currentVolume + stepSize` and `BufferSize + 1` fit a 64-bit `int`. -/
theorem calcNewVolume64_eq (vs : volumeSettings) (vp : volumePlugin) (direction stepSize : Int)
    (hd : direction = 1 ∨ direction = -1) (hn : 0 ≤ stepSize)
    (hc : 0 ≤ vp.currentVolume) (hfit : vp.currentVolume + stepSize < 2 ^ 63)
    (hb0 : 0 ≤ vs.BufferSize) (hb1 : vs.BufferSize + 1 < 2 ^ 63)
    (hnb0 : -(2 ^ 63) ≤ vp.normalBuffer) (hnb1 : vp.normalBuffer < 2 ^ 63) :
    calcNewVolume64 vs vp direction stepSize = calcNewVolume vs vp direction stepSize := by
  have e3 : wrap64 (vs.BufferSize + 1) = vs.BufferSize + 1 := wrap64_eq _ (by omega) hb1
  unfold calcNewVolume64 calcNewVolume
  rcases hd with rfl | rfl
  · have e1 : wrap64 (1 * stepSize) = 1 * stepSize := wrap64_eq _ (by omega) (by omega)
    have e2 : wrap64 (vp.currentVolume + 1 * stepSize) = vp.currentVolume + 1 * stepSize :=
      wrap64_eq _ (by omega) (by omega)
    have e4 : wrap64 ((vs.BufferSize + 1) * 1) = (vs.BufferSize + 1) * 1 :=
      wrap64_eq _ (by omega) (by omega)
    simp only [e1, e2, e3, e4]
    by_cases hcr : reachesNormalMax vs vp.currentVolume (vp.currentVolume + 1 * stepSize) = true
    · simp only [hcr, if_true]
      rw [wrap64_eq ((vs.BufferSize + 1) * 1 - 1) (by omega) (by omega)]
    · simp only [hcr, Bool.false_eq_true, if_false]
      by_cases hz : vp.normalBuffer = 0 ∨ decide ((1 : Int) > 0) ≠ decide (vp.normalBuffer > 0)
      · simp only [hz, if_true]
      · simp only [hz, if_false]
        have hpos : 0 < vp.normalBuffer := by
          simp at hz
          omega
        rw [wrap64_eq (vp.normalBuffer - 1) (by omega) (by omega)]
  · have e1 : wrap64 (-1 * stepSize) = -1 * stepSize := wrap64_eq _ (by omega) (by omega)
    have e2 : wrap64 (vp.currentVolume + -1 * stepSize) = vp.currentVolume + -1 * stepSize :=
      wrap64_eq _ (by omega) (by omega)
    have e4 : wrap64 ((vs.BufferSize + 1) * -1) = (vs.BufferSize + 1) * -1 :=
      wrap64_eq _ (by omega) (by omega)
    simp only [e1, e2, e3, e4]
    by_cases hcr : reachesNormalMax vs vp.currentVolume (vp.currentVolume + -1 * stepSize) = true
    · simp only [hcr, if_true]
      rw [wrap64_eq ((vs.BufferSize + 1) * -1 - -1) (by omega) (by omega)]
    · simp only [hcr, Bool.false_eq_true, if_false]
      by_cases hz : vp.normalBuffer = 0 ∨ decide ((-1 : Int) > 0) ≠ decide (vp.normalBuffer > 0)
      · simp only [hz, if_true]
      · simp only [hz, if_false]
        have hneg : vp.normalBuffer < 0 := by
          simp at hz
          omega
        rw [wrap64_eq (vp.normalBuffer - -1) (by omega) (by omega)]

/-! ## Backend failure -/

/-- Whether `updateSystemVolume` reports an error is decided by the answer of the shell to
the command it runs; the error is the text of `utils.ExecCommand`. -/
theorem updateSystemVolume_fst (env : Env) (w : World) :
    (updateSystemVolume env w).1 =
      match (env.CombinedOutput w.ran.length "bash"
        ["-c", w.vs.SetCurVolumeCommand.replace "$1" (strconv.Itoa w.vp.currentVolume)]) with
      | (output, some err) =>
        some ("Failed to execute SetVolume (" ++ err ++ "): " ++ utils.TrimRightNewlines output)
      | (_, none) => none := by
  unfold updateSystemVolume World.run utils.ExecCommand utils.ExecCommandRaw
  dsimp only
  rcases env.CombinedOutput w.ran.length "bash"
    ["-c", w.vs.SetCurVolumeCommand.replace "$1" (strconv.Itoa w.vp.currentVolume)]
    with ⟨output, _ | err⟩
  · rfl
  · rfl

/-- A request that matches the grammar and is not an absolute value above
`OverMaxVolumeMax` makes `exec` compute a plugin state from the request and the state alone,
and then run the update. -/
theorem exec_valid_request (w : World) (s : String) (hinit : w.vp.hasInitialized = true)
    (hgram : MatchesGrammar s)
    (habs : ∀ v : Nat, s.toNat? = some v → (v : Int) ≤ w.vs.OverMaxVolumeMax) :
    ∃ vp : volumePlugin, ∀ env : Env, env.requests s →
      exec env w = execUpdate env { w with vp := vp } := by
  obtain ⟨sign, digits, rfl, hsign, h1, h3, hall⟩ := hgram
  have hm : matchDigits13 digits = true :=
    (matchDigits13_iff digits).2 ⟨h1, h3, fun c hc => by rw [isDigit_eq]; exact hall c hc⟩
  rcases hsign with rfl | rfl | rfl
  · have hv := digitsValue_range digits hm
    have hle := habs _ (toNat?_of_digits digits hm)
    rw [Int.toNat_of_nonneg hv.1] at hle
    refine ⟨{ w.vp with currentVolume := strconv.digitsValue digits, normalBuffer := 0 },
      fun env hreq => ?_⟩
    rw [exec_absolute_eq env w digits hinit hm hreq, if_neg (by omega)]
  · exact ⟨_, fun env hreq => exec_relative_eq env w '+' digits hinit (Or.inl rfl) hm hreq⟩
  · exact ⟨_, fun env hreq => exec_relative_eq env w '-' digits hinit (Or.inr rfl) hm hreq⟩

/-- C11: backend failure does not roll back the state. On an initialized plugin, for a valid
request (it matches the grammar and is not an absolute value above `OverMaxVolumeMax`), the
plugin state left by `exec` when the system command that applies the volume fails is the
state left when it succeeds; on failure the text returned is
`Error settings new volume (NewVolume=<currentVolume>, normalBuffer=<normalBuffer>): <error>`
with the computed values, and no command is pushed to the volume bar (on success
`vbCommandUpdateVolume` is pushed). -/
theorem exec_backend_failure_keeps_state (envOk envFail : Env) (w : World) (s : String)
    (hinit : w.vp.hasInitialized = true) (hgram : MatchesGrammar s)
    (habs : ∀ v : Nat, s.toNat? = some v → (v : Int) ≤ w.vs.OverMaxVolumeMax)
    (hreqOk : envOk.requests s) (hreqFail : envFail.requests s)
    (hok : ∀ command params, (envOk.CombinedOutput w.ran.length command params).2 = none)
    (hfail : ∀ command params,
      (envFail.CombinedOutput w.ran.length command params).2 ≠ none) :
    (exec envFail w).2.vp = (exec envOk w).2.vp ∧
    (∃ err, (exec envFail w).1 =
      "Error settings new volume (NewVolume=" ++ strconv.Itoa (exec envFail w).2.vp.currentVolume
        ++ ", normalBuffer=" ++ strconv.Itoa (exec envFail w).2.vp.normalBuffer ++ "): " ++ err) ∧
    (exec envFail w).2.pushed = w.pushed ∧
    (exec envOk w).2.pushed = w.pushed ++ [.vbCommandUpdateVolume] := by
  obtain ⟨vp, hvp⟩ := exec_valid_request w s hinit hgram habs
  rw [hvp envOk hreqOk, hvp envFail hreqFail]
  have h1 := updateSystemVolume_fst envOk { w with vp := vp }
  have h2 := updateSystemVolume_fst envFail { w with vp := vp }
  have hok' := hok "bash" ["-c", w.vs.SetCurVolumeCommand.replace "$1" (strconv.Itoa vp.currentVolume)]
  have hfail' := hfail "bash"
    ["-c", w.vs.SetCurVolumeCommand.replace "$1" (strconv.Itoa vp.currentVolume)]
  dsimp only at h1 h2
  rcases hO : envOk.CombinedOutput w.ran.length "bash"
    ["-c", w.vs.SetCurVolumeCommand.replace "$1" (strconv.Itoa vp.currentVolume)]
    with ⟨outO, errO⟩
  rcases hF : envFail.CombinedOutput w.ran.length "bash"
    ["-c", w.vs.SetCurVolumeCommand.replace "$1" (strconv.Itoa vp.currentVolume)]
    with ⟨outF, errF⟩
  rw [hO] at h1 hok'
  rw [hF] at h2 hfail'
  dsimp only at hok' hfail'
  subst hok'
  cases errF with
  | none => exact absurd rfl hfail'
  | some e =>
    dsimp only at h1 h2
    refine ⟨?_, ⟨"Failed to execute SetVolume (" ++ e ++ "): " ++ utils.TrimRightNewlines outF,
      ?_⟩, ?_, ?_⟩
    · rw [execUpdate_vp, execUpdate_vp]
    · rw [execUpdate_vp, execUpdate_eq, h2]
    · rw [execUpdate_eq, h2]
      rfl
    · rw [execUpdate_eq, h1]
      rfl

theorem toNat?_signed (c : Char) (ds : List Char) (hc : c = '+' ∨ c = '-') :
    (String.mk (c :: ds)).toNat? = none := by
  have hnat : (String.mk (c :: ds)).isNat = false := by
    simp only [String.isNat, String.all_eq, List.all_cons, Bool.and_eq_false_imp]
    intro _
    rcases hc with rfl | rfl <;> simp
  unfold String.toNat?
  rw [hnat]
  rfl

theorem exec_backend_failure_keeps_state_witness :
    ((exampleWorld (pluginAt 99 0)).vp.hasInitialized = true ∧ MatchesGrammar "+1" ∧
      (exampleEnv (some "+1") ("", none)).requests "+1" ∧
      (exampleEnv (some "+1") ("no sink", some "exit status 1")).requests "+1") ∧
    (exec (exampleEnv (some "+1") ("no sink", some "exit status 1"))
        (exampleWorld (pluginAt 99 0))).2.vp =
      (exec (exampleEnv (some "+1") ("", none)) (exampleWorld (pluginAt 99 0))).2.vp ∧
    (∃ err, (exec (exampleEnv (some "+1") ("no sink", some "exit status 1"))
        (exampleWorld (pluginAt 99 0))).1 =
      "Error settings new volume (NewVolume=" ++
        strconv.Itoa (exec (exampleEnv (some "+1") ("no sink", some "exit status 1"))
          (exampleWorld (pluginAt 99 0))).2.vp.currentVolume
        ++ ", normalBuffer=" ++
        strconv.Itoa (exec (exampleEnv (some "+1") ("no sink", some "exit status 1"))
          (exampleWorld (pluginAt 99 0))).2.vp.normalBuffer ++ "): " ++ err) ∧
    (exec (exampleEnv (some "+1") ("no sink", some "exit status 1"))
      (exampleWorld (pluginAt 99 0))).2.pushed = [] ∧
    (exec (exampleEnv (some "+1") ("", none)) (exampleWorld (pluginAt 99 0))).2.pushed =
      [] ++ [.vbCommandUpdateVolume] :=
  have hg : MatchesGrammar "+1" :=
    ⟨['+'], ['1'], rfl, Or.inr (Or.inl rfl), by decide, by decide, by decide⟩
  ⟨⟨rfl, hg, rfl, rfl⟩,
    exec_backend_failure_keeps_state (exampleEnv (some "+1") ("", none))
      (exampleEnv (some "+1") ("no sink", some "exit status 1")) (exampleWorld (pluginAt 99 0))
      "+1" rfl hg
      (fun v hv => by rw [toNat?_signed '+' ['1'] (Or.inl rfl)] at hv; cases hv)
      rfl rfl (fun _ _ => rfl) (fun _ _ => Option.some_ne_none _)⟩

/-! ## The first call -/

theorem calcNewVolume_hasInitialized (vs : volumeSettings) (vp : volumePlugin) (d n : Int) :
    (calcNewVolume vs vp d n).2.hasInitialized = vp.hasInitialized := by
  rcases calcNewVolume_cases vs vp d n with ⟨h, e⟩ | ⟨h, h', e⟩ | ⟨h, h', h'', e⟩ |
    ⟨h, h', h'', rem, hrem, ⟨hq, e⟩ | ⟨hq1, hq2, hq3, e⟩ | ⟨hq1, hq2, hq3, e⟩⟩
  all_goals rw [e]

theorem stepRelative_hasInitialized (vs : volumeSettings) (vp : volumePlugin) (d n : Int) :
    (stepRelative vs vp d n).hasInitialized = vp.hasInitialized :=
  calcNewVolume_hasInitialized vs vp d n

/-- What the update at the end of `exec` sends out: always the command that sets the volume,
and `vbCommandUpdateVolume` when that command succeeds. -/
theorem execUpdate_effects (env : Env) (w : World) :
    (execUpdate env w).2.ran = w.ran ++ [("bash",
      ["-c", w.vs.SetCurVolumeCommand.replace "$1" (strconv.Itoa w.vp.currentVolume)])] ∧
    ((execUpdate env w).2.pushed = w.pushed ∨
      (execUpdate env w).2.pushed = w.pushed ++ [.vbCommandUpdateVolume]) := by
  rw [execUpdate_eq]
  cases (updateSystemVolume env w).1 with
  | none => exact ⟨rfl, Or.inr rfl⟩
  | some e => exact ⟨rfl, Or.inl rfl⟩

/-- On an initialized plugin `exec` either rejects the request and changes nothing, or
computes a plugin state (still initialized) and runs the update. -/
theorem exec_initialized_shape (env : Env) (w : World) (hinit : w.vp.hasInitialized = true) :
    (exec env w).2 = w ∨
    ∃ vp : volumePlugin, vp.hasInitialized = true ∧
      exec env w = execUpdate env { w with vp := vp } := by
  cases hq : env.getQueryVal "NewVolume" with
  | none =>
    left
    unfold exec
    simp only [hinit, Bool.not_true, Bool.false_eq_true, if_false, hq]
  | some s =>
    by_cases hg : MatchesGrammar s
    · obtain ⟨sign, digits, rfl, hsign, h1, h3, hall⟩ := hg
      have hm : matchDigits13 digits = true :=
        (matchDigits13_iff digits).2 ⟨h1, h3, fun c hc => by rw [isDigit_eq]; exact hall c hc⟩
      rcases hsign with rfl | rfl | rfl
      · have e := exec_absolute_eq env w digits hinit hm hq
        by_cases hgt : strconv.digitsValue digits > w.vs.OverMaxVolumeMax
        · left
          rw [e, if_pos hgt]
        · right
          rw [if_neg hgt] at e
          exact ⟨{ w.vp with currentVolume := strconv.digitsValue digits, normalBuffer := 0 },
            hinit, e⟩
      · right
        refine ⟨_, ?_, exec_relative_eq env w '+' digits hinit (Or.inl rfl) hm hq⟩
        rw [stepRelative_hasInitialized]
        exact hinit
      · right
        refine ⟨_, ?_, exec_relative_eq env w '-' digits hinit (Or.inr rfl) hm hq⟩
        rw [stepRelative_hasInitialized]
        exact hinit
    · left
      have hnil : FindStringSubmatch s = [] := by
        by_contra hne
        exact hg ((FindStringSubmatch_ne_nil_iff s).1 hne)
      unfold exec
      simp only [hinit, Bool.not_true, Bool.false_eq_true, if_false, hq, hnil]

/-- A call of `exec` on an initialized plugin runs no initialization: the plugin stays
initialized, the settings are kept, the only command that may be run is the one that sets
the volume and the only command that may be pushed to the volume bar is
`vbCommandUpdateVolume`. -/
theorem exec_initialized_effects (env : Env) (w : World) (hinit : w.vp.hasInitialized = true) :
    (exec env w).2.vp.hasInitialized = true ∧ (exec env w).2.vs = w.vs ∧
    ((exec env w).2.ran = w.ran ∨
      ∃ level : Int, (exec env w).2.ran = w.ran ++ [("bash",
        ["-c", w.vs.SetCurVolumeCommand.replace "$1" (strconv.Itoa level)])]) ∧
    ((exec env w).2.pushed = w.pushed ∨
      (exec env w).2.pushed = w.pushed ++ [.vbCommandUpdateVolume]) := by
  rcases exec_initialized_shape env w hinit with h | ⟨vp, hvp, h⟩
  · rw [h]
    exact ⟨hinit, rfl, Or.inl rfl, Or.inl rfl⟩
  · rw [h]
    have he := execUpdate_effects env { w with vp := vp }
    refine ⟨?_, execUpdate_vs env _, Or.inr ⟨vp.currentVolume, he.1⟩, he.2⟩
    rw [execUpdate_vp]
    exact hvp

/-- The state `initRunTime` leaves, written out. -/
theorem initRunTime_eq (env : Env) (w : World) :
    initRunTime env w =
      { vs := loadSettings env.vars w.vs
        vp :=
          { normalBuffer := w.vp.normalBuffer
            hasInitialized := true
            currentVolume :=
              match (env.CombinedOutput w.ran.length "bash"
                ["-c", (loadSettings env.vars w.vs).GetCurVolumeCommand]) with
              | (_, some _) => (loadSettings env.vars w.vs).DefaultVolume
              | (output, none) =>
                match verifyVolumeString (loadSettings env.vars w.vs)
                  (utils.TrimRightNewlines output) with
                | .error _ => (loadSettings env.vars w.vs).DefaultVolume
                | .ok curVol => curVol }
        ran := w.ran ++ [("bash", ["-c", (loadSettings env.vars w.vs).GetCurVolumeCommand])]
        pushed := w.pushed ++ [.vbCommandInitWindowAfterSettings] } := by
  unfold initRunTime fetchSystemVolume World.run World.PushCommand utils.ExecCommandRaw
  dsimp only
  rcases env.CombinedOutput w.ran.length "bash"
    ["-c", (loadSettings env.vars w.vs).GetCurVolumeCommand] with ⟨output, _ | err⟩
  · dsimp only
    cases verifyVolumeString (loadSettings env.vars w.vs) (utils.TrimRightNewlines output) <;> rfl
  · rfl

/-- A string of at most three characters that reads as a number `v ≤ OverMaxVolumeMax` is a
valid volume. -/
theorem verifyVolumeString_valid (vs : volumeSettings) (s : String) (v : Nat)
    (hlen : s.length ≤ 3) (hval : s.toNat? = some v) (hle : (v : Int) ≤ vs.OverMaxVolumeMax) :
    verifyVolumeString vs s = .ok (v : Int) := by
  obtain ⟨hds, hv⟩ := toNat?_digits s v hlen hval
  have e := verifyVolumeString_digits vs s.data hds
  have hs : String.mk s.data = s := rfl
  rw [hs, hv, if_neg (by omega)] at e
  exact e

/-- Every other string is not a valid volume. -/
theorem verifyVolumeString_invalid (vs : volumeSettings) (s : String)
    (h : ¬∃ v : Nat, s.length ≤ 3 ∧ s.toNat? = some v ∧ (v : Int) ≤ vs.OverMaxVolumeMax) :
    ∃ err, verifyVolumeString vs s = .error err := by
  cases hv : verifyVolumeString vs s with
  | error e => exact ⟨e, rfl⟩
  | ok v =>
    exfalso
    by_cases hm : matchDigits13 s.data = true
    · have hr := digitsValue_range _ hm
      have e := verifyVolumeString_digits vs s.data hm
      have hs : String.mk s.data = s := rfl
      have ht := toNat?_of_digits s.data hm
      rw [hs] at e ht
      rw [hv] at e
      by_cases hgt : strconv.digitsValue s.data > vs.OverMaxVolumeMax
      · rw [if_pos hgt] at e
        cases e
      · refine h ⟨(strconv.digitsValue s.data).toNat, ((matchDigits13_iff _).1 hm).2.1, ht, ?_⟩
        rw [Int.toNat_of_nonneg hr.1]
        omega
    · unfold verifyVolumeString at hv
      simp [hm] at hv

/-- C12: first-call initialization happens before the request's own computation. On the first
call of `exec` (`hasInitialized` is false), whatever the request, `exec` behaves as `exec`
on the state left by `initRunTime`: `hasInitialized` is true, the settings are loaded,
`currentVolume` is the level the system reports when the query succeeds and its output
(without trailing line feeds) is one to three digits with a value of at most
`OverMaxVolumeMax`, and `DefaultVolume` otherwise; a relative request is computed from that
value. A call on an initialized plugin runs no initialization: the plugin stays initialized,
the settings are kept, nothing but the command that sets the volume is run and nothing but
`vbCommandUpdateVolume` is pushed to the volume bar. -/
theorem exec_first_call_initializes (env : Env) (w : World)
    (hfirst : w.vp.hasInitialized = false) :
    exec env w = exec env (initRunTime env w) ∧
    (initRunTime env w).vp.hasInitialized = true ∧
    (exec env w).2.vp.hasInitialized = true ∧
    (initRunTime env w).vs = loadSettings env.vars w.vs ∧
    (∀ (output : String) (v : Nat),
      env.CombinedOutput w.ran.length "bash"
        ["-c", (loadSettings env.vars w.vs).GetCurVolumeCommand] = (output, none) →
      (utils.TrimRightNewlines output).length ≤ 3 →
      (utils.TrimRightNewlines output).toNat? = some v →
      (v : Int) ≤ (loadSettings env.vars w.vs).OverMaxVolumeMax →
      (initRunTime env w).vp.currentVolume = v) ∧
    ((∀ output : String,
      env.CombinedOutput w.ran.length "bash"
        ["-c", (loadSettings env.vars w.vs).GetCurVolumeCommand] = (output, none) →
      ¬∃ v : Nat, (utils.TrimRightNewlines output).length ≤ 3 ∧
        (utils.TrimRightNewlines output).toNat? = some v ∧
        (v : Int) ≤ (loadSettings env.vars w.vs).OverMaxVolumeMax) →
      (initRunTime env w).vp.currentVolume = (loadSettings env.vars w.vs).DefaultVolume) ∧
    (∀ (c : Char) (ds : List Char) (d : Nat), (c = '+' ∨ c = '-') →
      (String.mk ds).length ≤ 3 → (String.mk ds).toNat? = some d →
      env.requests (String.mk (c :: ds)) →
      (exec env w).2.vp.currentVolume =
        (calcNewVolume (initRunTime env w).vs (initRunTime env w).vp
          (if c = '+' then 1 else -1) d).1) ∧
    (∀ (env2 : Env) (w2 : World), w2.vp.hasInitialized = true →
      (exec env2 w2).2.vp.hasInitialized = true ∧ (exec env2 w2).2.vs = w2.vs ∧
      ((exec env2 w2).2.ran = w2.ran ∨
        ∃ level : Int, (exec env2 w2).2.ran = w2.ran ++ [("bash",
          ["-c", w2.vs.SetCurVolumeCommand.replace "$1" (strconv.Itoa level)])]) ∧
      ((exec env2 w2).2.pushed = w2.pushed ∨
        (exec env2 w2).2.pushed = w2.pushed ++ [.vbCommandUpdateVolume])) := by
  have hexec := exec_uninitialized env w hfirst
  have hi := initRunTime_spec env w
  have heq := initRunTime_eq env w
  refine ⟨hexec, hi.1, ?_, hi.2.1, ?_, ?_, ?_,
    fun env2 w2 h2 => exec_initialized_effects env2 w2 h2⟩
  · rw [hexec]
    exact (exec_initialized_effects env _ hi.1).1
  · intro output v hout hlen hval hle
    rw [heq]
    dsimp only
    rw [hout]
    dsimp only
    rw [verifyVolumeString_valid _ _ v hlen hval hle]
  · intro hbad
    rw [heq]
    dsimp only
    rcases hout : env.CombinedOutput w.ran.length "bash"
      ["-c", (loadSettings env.vars w.vs).GetCurVolumeCommand] with ⟨output, _ | err⟩
    · dsimp only
      obtain ⟨e, he⟩ := verifyVolumeString_invalid (loadSettings env.vars w.vs)
        (utils.TrimRightNewlines output) (hbad output hout)
      rw [he]
    · rfl
  · intro c ds d hc hlen hval hreq
    obtain ⟨hds, hv⟩ := toNat?_digits (String.mk ds) d hlen hval
    rw [hexec, exec_relative_eq env _ c ds hi.1 hc hds hreq, execUpdate_vp]
    have hv' : strconv.digitsValue ds = d := hv
    rw [hv']
    rfl

theorem exec_first_call_initializes_witness :
    globalVP.hasInitialized = false ∧
    (exec (exampleEnv (some "+5") ("57\n", none))
        { vs := volumeSettings.zero, vp := globalVP, ran := [], pushed := [] }).2.vp.hasInitialized
      = true ∧
    (initRunTime (exampleEnv (some "+5") ("57\n", none))
        { vs := volumeSettings.zero, vp := globalVP, ran := [], pushed := [] }).vp.currentVolume
      = 57 ∧
    (exec (exampleEnv (some "+5") ("57\n", none))
        { vs := volumeSettings.zero, vp := globalVP, ran := [], pushed := [] }).2.vp.currentVolume
      = (calcNewVolume
          (initRunTime (exampleEnv (some "+5") ("57\n", none))
            { vs := volumeSettings.zero, vp := globalVP, ran := [], pushed := [] }).vs
          (initRunTime (exampleEnv (some "+5") ("57\n", none))
            { vs := volumeSettings.zero, vp := globalVP, ran := [], pushed := [] }).vp
          1 5).1 :=
  have h := exec_first_call_initializes (exampleEnv (some "+5") ("57\n", none))
    { vs := volumeSettings.zero, vp := globalVP, ran := [], pushed := [] } rfl
  ⟨rfl, h.2.2.1,
    h.2.2.2.2.1 "57\n" 57 rfl (by decide) (toNat?_of_digits ['5', '7'] (by decide)) (by decide),
    h.2.2.2.2.2.2.1 '+' ['5'] 5 (Or.inl rfl) (by decide)
      (toNat?_of_digits ['5'] (by decide)) rfl⟩

/-! ## Loading the settings -/

theorem loadIntSetting_eq (vars : String → Option (String → Option String))
    (settingName : String) (theDefault : Int) (f : Int → Int) :
    loadIntSetting vars settingName theDefault (some f) =
      f (match strconv.Atoi (settings.Get vars "Volume" settingName "") with
        | (newVal, none) => newVal
        | (_, some _) => theDefault) := rfl

/-- C13: for every assignment of raw setting strings (present, missing, not a number or out
of range), the settings `loadSettings` leaves satisfy `NormalVolumeMax ≥ 1`,
`OverMaxVolumeMax ≥ NormalVolumeMax`, `BufferSize ≥ 0` and
`0 ≤ DefaultVolume ≤ OverMaxVolumeMax` (so `0 ≤ NormalVolumeMax ≤ OverMaxVolumeMax`). Each of
the four is the normalised value of what `strconv.Atoi` reads from the raw string, or of the
default (100, 200, 5, 50 respectively) when the raw string does not parse; with no raw
strings at all the four are 100, 200, 5 and 50. -/
theorem loadSettings_normalises (vars : String → Option (String → Option String))
    (vs : volumeSettings) :
    (1 ≤ (loadSettings vars vs).NormalVolumeMax ∧
      (loadSettings vars vs).NormalVolumeMax ≤ (loadSettings vars vs).OverMaxVolumeMax ∧
      0 ≤ (loadSettings vars vs).BufferSize ∧
      0 ≤ (loadSettings vars vs).DefaultVolume ∧
      (loadSettings vars vs).DefaultVolume ≤ (loadSettings vars vs).OverMaxVolumeMax ∧
      0 ≤ (loadSettings vars vs).NormalVolumeMax) ∧
    (loadSettings vars vs).NormalVolumeMax =
      max (match strconv.Atoi (settings.Get vars "Volume" "NormalVolumeMax" "") with
        | (newVal, none) => newVal
        | (_, some _) => 100) 1 ∧
    (loadSettings vars vs).OverMaxVolumeMax =
      max (match strconv.Atoi (settings.Get vars "Volume" "OverMaxVolumeMax" "") with
        | (newVal, none) => newVal
        | (_, some _) => 200) (loadSettings vars vs).NormalVolumeMax ∧
    (loadSettings vars vs).BufferSize =
      max (match strconv.Atoi (settings.Get vars "Volume" "BufferSize" "") with
        | (newVal, none) => newVal
        | (_, some _) => 5) 0 ∧
    (loadSettings vars vs).DefaultVolume =
      max 0 (min (match strconv.Atoi (settings.Get vars "Volume" "DefaultVolume" "") with
        | (newVal, none) => newVal
        | (_, some _) => 50) (loadSettings vars vs).OverMaxVolumeMax) ∧
    ((loadSettings (fun _ => none) vs).NormalVolumeMax = 100 ∧
      (loadSettings (fun _ => none) vs).OverMaxVolumeMax = 200 ∧
      (loadSettings (fun _ => none) vs).BufferSize = 5 ∧
      (loadSettings (fun _ => none) vs).DefaultVolume = 50) := by
  have e1 : (loadSettings vars vs).NormalVolumeMax =
      loadIntSetting vars "NormalVolumeMax" 100 (some fun v => max v 1) := rfl
  have e2 : (loadSettings vars vs).BufferSize =
      loadIntSetting vars "BufferSize" 5 (some fun v => max v 0) := rfl
  have e3 : (loadSettings vars vs).OverMaxVolumeMax =
      loadIntSetting vars "OverMaxVolumeMax" 200
        (some fun v => max v (loadSettings vars vs).NormalVolumeMax) := rfl
  have e4 : (loadSettings vars vs).DefaultVolume =
      loadIntSetting vars "DefaultVolume" 50
        (some fun v => max 0 (min v (loadSettings vars vs).OverMaxVolumeMax)) := rfl
  rw [loadIntSetting_eq] at e1 e2 e3 e4
  have hc := loadSettings_constraints vars vs
  refine ⟨⟨hc.1, hc.2.1, hc.2.2.1, hc.2.2.2.1, hc.2.2.2.2, by omega⟩, e1, e3, e2, e4, ?_⟩
  exact ⟨rfl, rfl, rfl, rfl⟩

/-! ## The volume bar -/

/-- Go `float64(i)` is `i` for `0 ≤ i ≤ 2^53`. -/
theorem float64OfInt_exact (i : Int) (h0 : 0 ≤ i) (h1 : i ≤ 2 ^ 53) : float64OfInt i = i := by
  have h : i.natAbs ≤ 2 ^ 53 := by omega
  unfold float64OfInt
  simp only [h, if_true]

/-- Where the pixel positions are exact: with `PercentPixelWidth ≥ 1` and
`OverMaxVolumeMax * PercentPixelWidth ≤ 2^53`, the rectangle from volume `v1` to volume `v2`,
both in `[0, OverMaxVolumeMax]`, runs from pixel `v1 * PercentPixelWidth` to pixel
`v2 * PercentPixelWidth`: no product wraps and no conversion rounds. -/
theorem drawBarPart_exact (vs : volumeSettings) (col : RGBA) (v1 v2 : Int)
    (hppw : 1 ≤ vs.PercentPixelWidth)
    (hfit : vs.OverMaxVolumeMax * vs.PercentPixelWidth ≤ 2 ^ 53)
    (h1 : 0 ≤ v1) (h1' : v1 ≤ vs.OverMaxVolumeMax)
    (h2 : 0 ≤ v2) (h2' : v2 ≤ vs.OverMaxVolumeMax) :
    drawBarPart vs col v1 v2 =
      { col := col, x1 := v1 * vs.PercentPixelWidth, y1 := 0,
        x2 := v2 * vs.PercentPixelWidth, y2 := float64OfInt vs.VolumeBarHeight } := by
  have key : ∀ v : Int, 0 ≤ v → v ≤ vs.OverMaxVolumeMax →
      float64OfInt (wrap64 (v * vs.PercentPixelWidth)) = v * vs.PercentPixelWidth := by
    intro v hv hv'
    have a : 0 ≤ v * vs.PercentPixelWidth := mul_nonneg hv (by omega)
    have b : v * vs.PercentPixelWidth ≤ vs.OverMaxVolumeMax * vs.PercentPixelWidth :=
      mul_le_mul_of_nonneg_right hv' (by omega)
    rw [wrap64_eq _ (by omega) (by omega), float64OfInt_exact _ a (by omega)]
  unfold drawBarPart
  rw [key v1 h1 h1', key v2 h2 h2']

/-- C14 (as the code behaves): under settings with `1 ≤ NormalVolumeMax ≤ OverMaxVolumeMax`,
`PercentPixelWidth ≥ 1` and `OverMaxVolumeMax * PercentPixelWidth ≤ 2^53` (the width of the bar
in pixels is an integer that `float64` holds exactly, so no pixel position wraps as a 64-bit
`int` or is rounded), for `0 ≤ currentVolume ≤ OverMaxVolumeMax`, `drawWindow` draws,
left to right, a normal-colour segment from 0 to `min currentVolume NormalVolumeMax` exactly
when `currentVolume > 0`, an over-max-colour segment from `NormalVolumeMax` to
`currentVolume` exactly when `currentVolume > NormalVolumeMax`, and a background segment from
`currentVolume` to `OverMaxVolumeMax` exactly when `currentVolume < OverMaxVolumeMax`; a
segment from volume `v1` to volume `v2` runs from pixel `v1 * PercentPixelWidth` to pixel
`v2 * PercentPixelWidth`; every drawn segment has positive width, each starts where the
previous one ended, and together they cover `[0, OverMaxVolumeMax * PercentPixelWidth]`
pixels; each is of full height. -/
theorem drawWindow_segments (vs : volumeSettings) (currentVolume : Int)
    (hnm : 1 ≤ vs.NormalVolumeMax) (hom : vs.NormalVolumeMax ≤ vs.OverMaxVolumeMax)
    (hppw : 1 ≤ vs.PercentPixelWidth)
    (hfit : vs.OverMaxVolumeMax * vs.PercentPixelWidth ≤ 2 ^ 53)
    (hlo : 0 ≤ currentVolume) (hhi : currentVolume ≤ vs.OverMaxVolumeMax) :
    drawWindow vs currentVolume =
      (if currentVolume > 0 then
        [drawBarPart vs vs.VolColor 0 (min currentVolume vs.NormalVolumeMax)] else []) ++
      (if currentVolume > vs.NormalVolumeMax then
        [drawBarPart vs vs.OverMaxColor vs.NormalVolumeMax currentVolume] else []) ++
      (if currentVolume < vs.OverMaxVolumeMax then
        [drawBarPart vs vs.BGColor currentVolume vs.OverMaxVolumeMax] else []) ∧
    (∀ (col : RGBA) (v1 v2 : Int), 0 ≤ v1 → v1 ≤ vs.OverMaxVolumeMax →
      0 ≤ v2 → v2 ≤ vs.OverMaxVolumeMax →
      (drawBarPart vs col v1 v2).x1 = v1 * vs.PercentPixelWidth ∧
      (drawBarPart vs col v1 v2).x2 = v2 * vs.PercentPixelWidth) ∧
    Tiles (drawWindow vs currentVolume) 0 (vs.OverMaxVolumeMax * vs.PercentPixelWidth) ∧
    (∀ r ∈ drawWindow vs currentVolume,
      r.y1 = 0 ∧ r.y2 = float64OfInt vs.VolumeBarHeight) := by
  have key : ∀ a b : Int, a < b → a * vs.PercentPixelWidth < b * vs.PercentPixelWidth :=
    fun a b h => mul_lt_mul_of_pos_right h (by omega)
  have ex := fun (col : RGBA) (a b : Int) (ha : 0 ≤ a) (ha' : a ≤ vs.OverMaxVolumeMax)
      (hb : 0 ≤ b) (hb' : b ≤ vs.OverMaxVolumeMax) =>
    drawBarPart_exact vs col a b hppw hfit ha ha' hb hb'
  have hshape : drawWindow vs currentVolume =
      (if currentVolume > 0 then
        [drawBarPart vs vs.VolColor 0 (min currentVolume vs.NormalVolumeMax)] else []) ++
      (if currentVolume > vs.NormalVolumeMax then
        [drawBarPart vs vs.OverMaxColor vs.NormalVolumeMax currentVolume] else []) ++
      (if currentVolume < vs.OverMaxVolumeMax then
        [drawBarPart vs vs.BGColor currentVolume vs.OverMaxVolumeMax] else []) := by
    unfold drawWindow
    by_cases h0 : currentVolume > 0 <;> by_cases h1 : currentVolume > vs.NormalVolumeMax <;>
      by_cases h2 : currentVolume < vs.OverMaxVolumeMax <;> simp [h0, h1, h2]
  refine ⟨hshape, ?_, ?_, ?_⟩
  · intro col v1 v2 a a' b b'
    rw [ex col v1 v2 a a' b b']
    exact ⟨rfl, rfl⟩
  · rw [hshape]
    by_cases h0 : currentVolume > 0
    · by_cases h1 : currentVolume > vs.NormalVolumeMax
      · have hmin : min currentVolume vs.NormalVolumeMax = vs.NormalVolumeMax :=
          min_eq_right (by omega)
        by_cases h2 : currentVolume < vs.OverMaxVolumeMax
        · simp only [h0, h1, h2, if_true, hmin, List.cons_append, List.nil_append,
            ex vs.VolColor 0 vs.NormalVolumeMax (by omega) (by omega) (by omega) (by omega),
            ex vs.OverMaxColor vs.NormalVolumeMax currentVolume (by omega) (by omega)
              (by omega) (by omega),
            ex vs.BGColor currentVolume vs.OverMaxVolumeMax (by omega) (by omega)
              (by omega) (by omega), Tiles]
          exact ⟨by ring, key _ _ (by omega), trivial, key _ _ h1, trivial, key _ _ h2, trivial⟩
        · have he : currentVolume = vs.OverMaxVolumeMax := by omega
          simp only [h0, h1, h2, if_true, if_false, hmin, List.cons_append, List.nil_append,
            List.append_nil,
            ex vs.VolColor 0 vs.NormalVolumeMax (by omega) (by omega) (by omega) (by omega),
            ex vs.OverMaxColor vs.NormalVolumeMax currentVolume (by omega) (by omega)
              (by omega) (by omega), Tiles]
          exact ⟨by ring, key _ _ (by omega), trivial, key _ _ h1, by rw [he]⟩
      · have hmin : min currentVolume vs.NormalVolumeMax = currentVolume :=
          min_eq_left (by omega)
        by_cases h2 : currentVolume < vs.OverMaxVolumeMax
        · simp only [h0, h1, h2, if_true, if_false, hmin, List.cons_append, List.nil_append,
            List.append_nil,
            ex vs.VolColor 0 currentVolume (by omega) (by omega) (by omega) (by omega),
            ex vs.BGColor currentVolume vs.OverMaxVolumeMax (by omega) (by omega)
              (by omega) (by omega), Tiles]
          exact ⟨by ring, key _ _ h0, trivial, key _ _ h2, trivial⟩
        · have he : currentVolume = vs.OverMaxVolumeMax := by omega
          simp only [h0, h1, h2, if_true, if_false, hmin, List.cons_append, List.nil_append,
            List.append_nil,
            ex vs.VolColor 0 currentVolume (by omega) (by omega) (by omega) (by omega), Tiles]
          exact ⟨by ring, key _ _ h0, by rw [he]⟩
    · have he : currentVolume = 0 := by omega
      have h1 : ¬currentVolume > vs.NormalVolumeMax := by omega
      have h2 : currentVolume < vs.OverMaxVolumeMax := by omega
      simp only [h0, h1, h2, if_true, if_false, List.nil_append,
        ex vs.BGColor currentVolume vs.OverMaxVolumeMax (by omega) (by omega)
          (by omega) (by omega), Tiles]
      exact ⟨by rw [he]; ring, key _ _ h2, trivial⟩
  · intro r hr
    rw [hshape] at hr
    simp only [List.mem_append] at hr
    rcases hr with (hr | hr) | hr
    · split_ifs at hr
      · rw [List.mem_singleton] at hr
        rw [hr]
        exact ⟨rfl, rfl⟩
      · cases hr
    · split_ifs at hr
      · rw [List.mem_singleton] at hr
        rw [hr]
        exact ⟨rfl, rfl⟩
      · cases hr
    · split_ifs at hr
      · rw [List.mem_singleton] at hr
        rw [hr]
        exact ⟨rfl, rfl⟩
      · cases hr

theorem drawWindow_segments_witness :
    (1 ≤ exampleBarSettings.NormalVolumeMax ∧
      exampleBarSettings.NormalVolumeMax ≤ exampleBarSettings.OverMaxVolumeMax ∧
      1 ≤ exampleBarSettings.PercentPixelWidth ∧
      exampleBarSettings.OverMaxVolumeMax * exampleBarSettings.PercentPixelWidth ≤ 2 ^ 53 ∧
      (0 : Int) ≤ 130 ∧ (130 : Int) ≤ exampleBarSettings.OverMaxVolumeMax) ∧
    drawWindow exampleBarSettings 130 =
      [⟨⟨0, 0, 255, 52⟩, 0, 0, 600, 80⟩, ⟨⟨255, 0, 0, 52⟩, 600, 0, 780, 80⟩,
        ⟨⟨0, 0, 0, 52⟩, 780, 0, 1200, 80⟩] ∧
    Tiles (drawWindow exampleBarSettings 130) 0
      (exampleBarSettings.OverMaxVolumeMax * exampleBarSettings.PercentPixelWidth) :=
  have h := drawWindow_segments exampleBarSettings 130 (by decide) (by decide) (by decide)
    (by decide) (by decide) (by decide)
  ⟨by decide, by decide, h.2.2.1⟩

/-- The bound on the width of the bar is needed: with `PercentPixelWidth = 2^62` the product
`OverMaxVolumeMax * PercentPixelWidth` wraps to 0 and the background rectangle at volume 1
runs from pixel `2^62` back to pixel 0; with `PercentPixelWidth = 2^55 + 1` the conversion to
`float64` rounds the pixel positions. -/
theorem drawWindow_at_large_pixel_width :
    drawWindow { exampleBarSettings with PercentPixelWidth := 4611686018427387904 } 1 =
      [⟨⟨0, 0, 255, 52⟩, 0, 0, 4611686018427387904, 80⟩,
        ⟨⟨0, 0, 0, 52⟩, 4611686018427387904, 0, 0, 80⟩] ∧
    (drawBarPart { exampleBarSettings with PercentPixelWidth := 36028797018963969 }
      ⟨0, 0, 0, 52⟩ 1 200).x1 = 36028797018963968 := by
  decide

/-- C14, the claim as stated fails at `currentVolume = 0`: `drawWindow` draws the background
from 0 to `OverMaxVolumeMax` and nothing else, so no normal-colour segment is drawn (the one
from 0 to `min 0 NormalVolumeMax = 0` is left out by the guard `currentVolume > 0`). -/
theorem drawWindow_at_zero_draws_no_normal_segment :
    drawWindow exampleBarSettings 0 = [⟨⟨0, 0, 0, 52⟩, 0, 0, 1200, 80⟩] ∧
    drawBarPart exampleBarSettings exampleBarSettings.VolColor 0
      (min 0 exampleBarSettings.NormalVolumeMax) ∉ drawWindow exampleBarSettings 0 ∧
    ∀ r ∈ drawWindow exampleBarSettings 0, r.col ≠ exampleBarSettings.VolColor := by
  decide

/-! ## The window loop -/

theorem processCommand_UpdateVolume_done (vs : volumeSettings) (currentVolume : Int)
    (l : windowLoop) :
    ∃ acts, (processCommand vs currentVolume l .vbCommandUpdateVolume).done = l.done ++ acts ∧
      ((∃ rects, vbAction.drawWindow rects ∈ acts) ↔
        l.currentWindowState = .windowStateVisible) ∧
      ((∃ ms, vbAction.timerReset ms ∈ acts) ↔
        l.currentWindowState = .windowStateVisible) := by
  unfold processCommand
  cases h : l.currentWindowState
  · exact ⟨_, rfl, by simp, by simp⟩
  · exact ⟨_, rfl, by simp, by simp⟩
  · exact ⟨_, rfl, by simp, by simp⟩

/-- C15: in the command loop of the volume bar, processing `vbCommandUpdateVolume` draws the
bar or sets the hide timer only when the state is visible. In the hidden state it positions
the window, starts the settle delay and moves to the initializing state without drawing; in
the initializing state it only refreshes the window and leaves the state as it is; in the
visible state it redraws and sets the timer again. The state becomes visible only when a
settle delay ends, and a settle delay is started only by `vbCommandUpdateVolume` processed in
the hidden state. -/
theorem processCommand_UpdateVolume_by_state (vs : volumeSettings) (currentVolume : Int)
    (l : windowLoop) :
    (l.currentWindowState = .windowStateHidden →
      processCommand vs currentVolume l .vbCommandUpdateVolume =
        { l with
          currentWindowState := .windowStateInitializing
          settling := l.settling + 1
          done := l.done ++ [.winClear, .HideFromTaskbar, .winShow,
            .winSetPos
              (vs.VolumeBarLeftOffset +
                Int.tdiv (vs.ScreenWidth - vs.PercentPixelWidth * vs.OverMaxVolumeMax) 2)
              vs.VolumeBarTop,
            .goSettleDelay, .winUpdate] }) ∧
    (l.currentWindowState = .windowStateInitializing →
      processCommand vs currentVolume l .vbCommandUpdateVolume =
        { l with done := l.done ++ [.winUpdate] }) ∧
    (l.currentWindowState = .windowStateVisible →
      processCommand vs currentVolume l .vbCommandUpdateVolume =
        { l with
          timerArmed := true
          done := l.done ++ [.SetOnTop, .MakeNonFocusable,
            .drawWindow (drawWindow vs currentVolume), .timerReset vs.VolumeBarTimeout,
            .winUpdate] }) ∧
    (∃ acts, (processCommand vs currentVolume l .vbCommandUpdateVolume).done = l.done ++ acts ∧
      ((∃ rects, vbAction.drawWindow rects ∈ acts) ↔
        l.currentWindowState = .windowStateVisible) ∧
      ((∃ ms, vbAction.timerReset ms ∈ acts) ↔
        l.currentWindowState = .windowStateVisible)) ∧
    (∀ (ev : loopEvent) (l1 : windowLoop), loopStep vs currentVolume l ev = some l1 →
      l1.currentWindowState = .windowStateVisible →
      l.currentWindowState ≠ .windowStateVisible →
      ev = .settleElapsed ∧ 0 < l.settling) ∧
    (∀ (ev : loopEvent) (l1 : windowLoop), loopStep vs currentVolume l ev = some l1 →
      l.settling < l1.settling →
      ev = .receive ∧ l.currentWindowState = .windowStateHidden ∧
        l.commands.head? = some .vbCommandUpdateVolume) := by
  refine ⟨fun h => ?_, fun h => ?_, fun h => ?_,
    processCommand_UpdateVolume_done vs currentVolume l, ?_, ?_⟩
  · unfold processCommand
    rw [h]
  · unfold processCommand
    rw [h]
  · unfold processCommand
    rw [h]
  · intro ev l1 hstep hvis hnot
    cases ev with
    | receive =>
      simp only [loopStep] at hstep
      cases hr : l.returned
      · rw [hr] at hstep
        cases hc : l.commands with
        | nil => rw [hc] at hstep; simp at hstep
        | cons c rest =>
          rw [hc] at hstep
          simp only [Bool.false_eq_true, if_false, Option.some.injEq] at hstep
          subst hstep
          exfalso
          cases c <;> unfold processCommand at hvis
          · exact hnot hvis
          · cases hs : l.currentWindowState <;> simp only [hs] at hvis hnot
            · cases hvis
            · cases hvis
            · exact hnot rfl
          · exact hnot hvis
      · rw [hr] at hstep
        simp at hstep
    | poll =>
      simp only [loopStep] at hstep
      split_ifs at hstep
      cases hstep
      exact absurd hvis hnot
    | push c =>
      simp only [loopStep] at hstep
      cases hstep
      exact absurd hvis hnot
    | settleElapsed =>
      simp only [loopStep] at hstep
      split_ifs at hstep with h0
      exact ⟨rfl, Nat.pos_of_ne_zero h0⟩
    | timerFired =>
      simp only [loopStep] at hstep
      split_ifs at hstep
      cases hstep
      cases hvis
  · intro ev l1 hstep hlt
    cases ev with
    | receive =>
      simp only [loopStep] at hstep
      cases hr : l.returned
      · rw [hr] at hstep
        cases hc : l.commands with
        | nil => rw [hc] at hstep; simp at hstep
        | cons c rest =>
          rw [hc] at hstep
          simp only [Bool.false_eq_true, if_false, Option.some.injEq] at hstep
          subst hstep
          cases c <;> unfold processCommand at hlt
          · exact absurd hlt (lt_irrefl _)
          · cases hs : l.currentWindowState <;> simp only [hs] at hlt
            · exact ⟨rfl, rfl, rfl⟩
            · exact absurd hlt (lt_irrefl _)
            · exact absurd hlt (lt_irrefl _)
          · exact absurd hlt (lt_irrefl _)
      · rw [hr] at hstep
        simp at hstep
    | poll =>
      simp only [loopStep] at hstep
      split_ifs at hstep
      cases hstep
      exact absurd hlt (lt_irrefl _)
    | push c =>
      simp only [loopStep] at hstep
      cases hstep
      exact absurd hlt (lt_irrefl _)
    | settleElapsed =>
      simp only [loopStep] at hstep
      split_ifs at hstep with h0
      cases hstep
      simp only at hlt
      omega
    | timerFired =>
      simp only [loopStep] at hstep
      split_ifs at hstep
      cases hstep
      exact absurd hlt (lt_irrefl _)

/-- A single `vbCommandUpdateVolume` while hidden: after it is processed the state is
initializing and nothing was drawn; once the settle delay has ended and the command it pushes
is processed, the bar is drawn and the hide timer set. -/
theorem loopRun_single_update :
    (loopRun exampleBarSettings 130 windowLoop.start
      [.timerFired, .push .vbCommandUpdateVolume, .receive]).map
        (fun l => (l.currentWindowState, l.done)) =
      some (.windowStateInitializing,
        [.winHide, .winClear, .HideFromTaskbar, .winShow, .winSetPos 360 30, .goSettleDelay,
          .winUpdate]) ∧
    (loopRun exampleBarSettings 130 windowLoop.start
      [.timerFired, .push .vbCommandUpdateVolume, .receive, .settleElapsed, .receive]).map
        (fun l => (l.currentWindowState, l.timerArmed, l.done.drop 7)) =
      some (.windowStateVisible, true,
        [.SetOnTop, .MakeNonFocusable, .drawWindow (drawWindow exampleBarSettings 130),
          .timerReset 2000, .winUpdate]) := by
  decide

/-! ## Properties of the reachable states -/

/-- C18: under settings with `1 ≤ NormalVolumeMax ≤ OverMaxVolumeMax` and `BufferSize ≥ 0`,
in every state reachable from an initial state with `normalBuffer = 0` by any sequence of
relative, absolute and rejected requests, a non-zero `normalBuffer` is stored only while the
volume is held at `NormalVolumeMax`. -/
theorem reachable_buffer_only_at_normalMax (vs : volumeSettings) (vp : volumePlugin)
    (hnm : 1 ≤ vs.NormalVolumeMax) (hom : vs.NormalVolumeMax ≤ vs.OverMaxVolumeMax)
    (hbs : 0 ≤ vs.BufferSize) (hreach : Reachable vs vp) :
    vp.normalBuffer ≠ 0 → vp.currentVolume = vs.NormalVolumeMax := by
  obtain ⟨a, _, _, _, i3, _⟩ := Reachable_Inv hnm hom hbs hreach
  exact i3

theorem reachable_buffer_only_at_normalMax_witness :
    (1 ≤ exampleSettings.NormalVolumeMax ∧
      exampleSettings.NormalVolumeMax ≤ exampleSettings.OverMaxVolumeMax ∧
      0 ≤ exampleSettings.BufferSize ∧ Reachable exampleSettings (pluginAt 100 2) ∧
      (pluginAt 100 2).normalBuffer ≠ 0) ∧
    (pluginAt 100 2).currentVolume = exampleSettings.NormalVolumeMax :=
  ⟨⟨by decide, by decide, by decide, reachable_example_armed, by decide⟩,
    reachable_buffer_only_at_normalMax exampleSettings (pluginAt 100 2) (by decide) (by decide)
      (by decide) reachable_example_armed (by decide)⟩

/-- A relative step from a state that satisfies the invariant stays between the volume before
it and the volume requested. -/
theorem calcNewVolume_between (vs : volumeSettings) (vp : volumePlugin) (d m a : Int)
    (hd : d = 1 ∨ d = -1) (hm : 0 ≤ m) (hI : Inv vs vp a) :
    min vp.currentVolume (vp.currentVolume + d * m) ≤ (calcNewVolume vs vp d m).1 ∧
    (calcNewVolume vs vp d m).1 ≤ max vp.currentVolume (vp.currentVolume + d * m) := by
  obtain ⟨_, i1, i2, i3, _, _, _⟩ := hI
  have hr := reachesNormalMax_iff vs vp.currentVolume (vp.currentVolume + d * m)
  by_cases hcr : reachesNormalMax vs vp.currentVolume (vp.currentVolume + d * m) = true
  · have hP := hr.1 hcr
    have hc := calcNewVolume_cases vs vp d m
    rw [if_pos hcr] at hc
    rcases hd with rfl | rfl
    · simp only [one_mul] at hc hP ⊢
      rcases hc with ⟨h, e⟩ | ⟨h, h', e⟩ | ⟨h, h', h'', e⟩ |
        ⟨h, h', h'', rem, hrem, ⟨hq, e⟩ | ⟨hq1, hq2, hq3, e⟩ | ⟨hq1, hq2, hq3, e⟩⟩
      all_goals
        rw [e]
        dsimp only
        omega
    · simp only [neg_mul, one_mul] at hc hP ⊢
      rcases hc with ⟨h, e⟩ | ⟨h, h', e⟩ | ⟨h, h', h'', e⟩ |
        ⟨h, h', h'', rem, hrem, ⟨hq, e⟩ | ⟨hq1, hq2, hq3, e⟩ | ⟨hq1, hq2, hq3, e⟩⟩
      all_goals
        rw [e]
        dsimp only
        omega
  · have hP := mt hr.2 hcr
    have hc := calcNewVolume_cases vs vp d m
    rw [if_neg hcr] at hc
    rcases hd with rfl | rfl
    · simp only [one_mul] at hc hP ⊢
      rcases hc with ⟨h, e⟩ | ⟨h, h', e⟩ | ⟨h, h', h'', e⟩ |
        ⟨h, h', h'', rem, hrem, ⟨hq, e⟩ | ⟨hq1, hq2, hq3, e⟩ | ⟨hq1, hq2, hq3, e⟩⟩
      all_goals
        rw [e]
        dsimp only
        omega
    · simp only [neg_mul, one_mul] at hc hP ⊢
      rcases hc with ⟨h, e⟩ | ⟨h, h', e⟩ | ⟨h, h', h'', e⟩ |
        ⟨h, h', h'', rem, hrem, ⟨hq, e⟩ | ⟨hq1, hq2, hq3, e⟩ | ⟨hq1, hq2, hq3, e⟩⟩
      all_goals
        rw [e]
        dsimp only
        omega

/-- A relative step computed over the unbounded integers never moves the volume against its
own direction or further than requested: under settings with
`1 ≤ NormalVolumeMax ≤ OverMaxVolumeMax` and `BufferSize ≥ 0`, in every reachable state and for
every magnitude `m ≥ 0`, a `+m` step returns a volume `v` with
`currentVolume ≤ v ≤ currentVolume + m` and a `-m` step returns a volume `v` with
`currentVolume - m ≤ v ≤ currentVolume`. -/
theorem calcNewVolume_within_request (vs : volumeSettings) (vp : volumePlugin) (m : Int)
    (hnm : 1 ≤ vs.NormalVolumeMax) (hom : vs.NormalVolumeMax ≤ vs.OverMaxVolumeMax)
    (hbs : 0 ≤ vs.BufferSize) (hreach : Reachable vs vp) (hm : 0 ≤ m) :
    (vp.currentVolume ≤ (calcNewVolume vs vp 1 m).1 ∧
      (calcNewVolume vs vp 1 m).1 ≤ vp.currentVolume + m) ∧
    (vp.currentVolume - m ≤ (calcNewVolume vs vp (-1) m).1 ∧
      (calcNewVolume vs vp (-1) m).1 ≤ vp.currentVolume) := by
  obtain ⟨a, hI⟩ := Reachable_Inv hnm hom hbs hreach
  have hp := calcNewVolume_between vs vp 1 m a (Or.inl rfl) hm hI
  have hn := calcNewVolume_between vs vp (-1) m a (Or.inr rfl) hm hI
  simp only [one_mul, neg_mul] at hp hn
  omega

/-! ## Relative steps with the arithmetic of a 64-bit `int` -/

/-- Where the embedding over `Int` is exact, for any volume: for a direction `+1` or `-1` and
a step size `≥ 0`, `calcNewVolume` agrees with its 64-bit version as long as
`currentVolume - stepSize`, `currentVolume + stepSize`, `BufferSize + 1` and `normalBuffer`
fit a 64-bit `int`. -/
theorem calcNewVolume64_eq_of_fits (vs : volumeSettings) (vp : volumePlugin)
    (direction stepSize : Int)
    (hd : direction = 1 ∨ direction = -1) (hn : 0 ≤ stepSize)
    (hlo : -(2 ^ 63) ≤ vp.currentVolume - stepSize)
    (hhi : vp.currentVolume + stepSize < 2 ^ 63)
    (hb0 : 0 ≤ vs.BufferSize) (hb1 : vs.BufferSize + 1 < 2 ^ 63)
    (hnb0 : -(2 ^ 63) ≤ vp.normalBuffer) (hnb1 : vp.normalBuffer < 2 ^ 63) :
    calcNewVolume64 vs vp direction stepSize = calcNewVolume vs vp direction stepSize := by
  have e3 : wrap64 (vs.BufferSize + 1) = vs.BufferSize + 1 := wrap64_eq _ (by omega) hb1
  unfold calcNewVolume64 calcNewVolume
  rcases hd with rfl | rfl
  · have e1 : wrap64 (1 * stepSize) = 1 * stepSize := wrap64_eq _ (by omega) (by omega)
    have e2 : wrap64 (vp.currentVolume + 1 * stepSize) = vp.currentVolume + 1 * stepSize :=
      wrap64_eq _ (by omega) (by omega)
    have e4 : wrap64 ((vs.BufferSize + 1) * 1) = (vs.BufferSize + 1) * 1 :=
      wrap64_eq _ (by omega) (by omega)
    simp only [e1, e2, e3, e4]
    by_cases hcr : reachesNormalMax vs vp.currentVolume (vp.currentVolume + 1 * stepSize) = true
    · simp only [hcr, if_true]
      rw [wrap64_eq ((vs.BufferSize + 1) * 1 - 1) (by omega) (by omega)]
    · simp only [hcr, Bool.false_eq_true, if_false]
      by_cases hz : vp.normalBuffer = 0 ∨ decide ((1 : Int) > 0) ≠ decide (vp.normalBuffer > 0)
      · simp only [hz, if_true]
      · simp only [hz, if_false]
        have hpos : 0 < vp.normalBuffer := by
          simp at hz
          omega
        rw [wrap64_eq (vp.normalBuffer - 1) (by omega) (by omega)]
  · have e1 : wrap64 (-1 * stepSize) = -1 * stepSize := wrap64_eq _ (by omega) (by omega)
    have e2 : wrap64 (vp.currentVolume + -1 * stepSize) = vp.currentVolume + -1 * stepSize :=
      wrap64_eq _ (by omega) (by omega)
    have e4 : wrap64 ((vs.BufferSize + 1) * -1) = (vs.BufferSize + 1) * -1 :=
      wrap64_eq _ (by omega) (by omega)
    simp only [e1, e2, e3, e4]
    by_cases hcr : reachesNormalMax vs vp.currentVolume (vp.currentVolume + -1 * stepSize) = true
    · simp only [hcr, if_true]
      rw [wrap64_eq ((vs.BufferSize + 1) * -1 - -1) (by omega) (by omega)]
    · simp only [hcr, Bool.false_eq_true, if_false]
      by_cases hz : vp.normalBuffer = 0 ∨ decide ((-1 : Int) > 0) ≠ decide (vp.normalBuffer > 0)
      · simp only [hz, if_true]
      · simp only [hz, if_false]
        have hneg : vp.normalBuffer < 0 := by
          simp at hz
          omega
        rw [wrap64_eq (vp.normalBuffer - -1) (by omega) (by omega)]

theorem stepRelative64_eq (vs : volumeSettings) (vp : volumePlugin) (direction stepSize : Int)
    (hd : direction = 1 ∨ direction = -1) (hn : 0 ≤ stepSize)
    (hlo : -(2 ^ 63) ≤ vp.currentVolume - stepSize)
    (hhi : vp.currentVolume + stepSize < 2 ^ 63)
    (hb0 : 0 ≤ vs.BufferSize) (hb1 : vs.BufferSize + 1 < 2 ^ 63)
    (hnb0 : -(2 ^ 63) ≤ vp.normalBuffer) (hnb1 : vp.normalBuffer < 2 ^ 63) :
    stepRelative64 vs vp direction stepSize = stepRelative vs vp direction stepSize := by
  unfold stepRelative64 stepRelative
  rw [calcNewVolume64_eq_of_fits vs vp direction stepSize hd hn hlo hhi hb0 hb1 hnb0 hnb1]

/-- Successive `+1` steps from `NormalVolumeMax - 1` are the same with 64-bit arithmetic as over
the unbounded integers, up to the step after the hold, when `BufferSize + 1` and
`OverMaxVolumeMax` fit a 64-bit `int`. -/
theorem plusSteps64_eq (vs : volumeSettings) (vp : volumePlugin)
    (hbs : 0 ≤ vs.BufferSize) (hb1 : vs.BufferSize + 1 < 2 ^ 63)
    (hnm : 0 ≤ vs.NormalVolumeMax) (hom : vs.NormalVolumeMax < vs.OverMaxVolumeMax)
    (hmax : vs.OverMaxVolumeMax < 2 ^ 63)
    (hcur : vp.currentVolume = vs.NormalVolumeMax - 1)
    (hnb0 : -(2 ^ 63) ≤ vp.normalBuffer) (hnb1 : vp.normalBuffer < 2 ^ 63) (k : Nat) :
    (k : Int) ≤ max vs.BufferSize 1 + 1 → plusSteps64 vs vp k = plusSteps vs vp k := by
  induction k with
  | zero => intro _; rfl
  | succ k ih =>
    intro hk
    have ih1 := ih (by omega)
    show stepRelative64 vs (plusSteps64 vs vp k) 1 1 = stepRelative vs (plusSteps vs vp k) 1 1
    rw [ih1]
    rcases Nat.eq_zero_or_pos k with rfl | hpos
    · exact stepRelative64_eq vs vp 1 1 (Or.inl rfl) (by omega) (by omega) (by omega) hbs hb1
        hnb0 hnb1
    · obtain ⟨h1, h2⟩ := plusSteps_held vs vp hbs hnm hom hcur k hpos (by omega)
      exact stepRelative64_eq vs (plusSteps vs vp k) 1 1 (Or.inl rfl) (by omega) (by omega)
        (by omega) hbs hb1 (by omega) (by omega)

/-- The step that reaches or passes `NormalVolumeMax`, with 64-bit arithmetic: when
`BufferSize + 1` fits a 64-bit `int` (and so do the volume, the step and the buffer), for
`delta ≠ 0` and a target `currentVolume + delta` in `[0, OverMaxVolumeMax]`, the stored
`normalBuffer` after the step is `direction * BufferSize`, and the returned volume is
`NormalVolumeMax` when `BufferSize ≥ 1` and `currentVolume + delta` when `BufferSize = 0`. -/
theorem calcNewVolume64_crossing (vs : volumeSettings) (vp : volumePlugin)
    (direction stepSize : Int) (hdir : direction = 1 ∨ direction = -1)
    (hn : 0 ≤ stepSize)
    (hfitlo : -(2 ^ 63) ≤ vp.currentVolume - stepSize)
    (hfithi : vp.currentVolume + stepSize < 2 ^ 63)
    (hbs : 0 ≤ vs.BufferSize) (hb1 : vs.BufferSize + 1 < 2 ^ 63)
    (hnb0 : -(2 ^ 63) ≤ vp.normalBuffer) (hnb1 : vp.normalBuffer < 2 ^ 63)
    (hdelta : direction * stepSize ≠ 0)
    (hlo : 0 ≤ vp.currentVolume + direction * stepSize)
    (hhi : vp.currentVolume + direction * stepSize ≤ vs.OverMaxVolumeMax)
    (hcross : (vp.currentVolume < vs.NormalVolumeMax ∧
        vs.NormalVolumeMax ≤ vp.currentVolume + direction * stepSize) ∨
      (vp.currentVolume > vs.NormalVolumeMax ∧
        vs.NormalVolumeMax ≥ vp.currentVolume + direction * stepSize)) :
    (calcNewVolume64 vs vp direction stepSize).2.normalBuffer = direction * vs.BufferSize ∧
    (1 ≤ vs.BufferSize → (calcNewVolume64 vs vp direction stepSize).1 = vs.NormalVolumeMax) ∧
    (vs.BufferSize = 0 →
      (calcNewVolume64 vs vp direction stepSize).1 =
        vp.currentVolume + direction * stepSize) := by
  rw [calcNewVolume64_eq_of_fits vs vp direction stepSize hdir hn hfitlo hfithi hbs hb1 hnb0
    hnb1]
  exact calcNewVolume_crossing vs vp direction stepSize hdir hbs hdelta hlo hhi hcross

/-- C3, an input on which the code does not do what the claim says: with
`BufferSize = 9223372036854775807` (read by `loadSettings` from the settings file, next to the
defaults `NormalVolumeMax = 100` and `OverMaxVolumeMax = 200`), the step `+7` from volume 99
with an empty buffer has its target 106 in `[0, OverMaxVolumeMax]` and passes
`NormalVolumeMax`, but `(BufferSize + 1) * direction` wraps to `-2^63`, whose sign is not that
of the direction: the step returns 106 and stores `normalBuffer = 0`, where the claim has
`NormalVolumeMax` and `direction * BufferSize`. -/
theorem calcNewVolume64_crossing_at_max_bufferSize :
    (maxBufferSettings.NormalVolumeMax = 100 ∧ maxBufferSettings.OverMaxVolumeMax = 200 ∧
      maxBufferSettings.BufferSize = 9223372036854775807) ∧
    wrap64 (wrap64 (maxBufferSettings.BufferSize + 1) * 1) = -9223372036854775808 ∧
    calcNewVolume64 maxBufferSettings (pluginAt 99 0) 1 7 = (106, pluginAt 99 0) ∧
    (calcNewVolume64 maxBufferSettings (pluginAt 99 0) 1 7).1 ≠
      maxBufferSettings.NormalVolumeMax ∧
    (calcNewVolume64 maxBufferSettings (pluginAt 99 0) 1 7).2.normalBuffer ≠
      1 * maxBufferSettings.BufferSize := by
  decide

/-- C4 (as the code behaves): with `BufferSize = B ≥ 0`, `NormalVolumeMax < OverMaxVolumeMax`,
and `B + 1` and `OverMaxVolumeMax` within the range of a 64-bit `int`, starting from
`currentVolume = NormalVolumeMax - 1` (with `normalBuffer = 0` or any other 64-bit value, the
step that reaches `NormalVolumeMax` overwrites it), successive relative `+1` steps report
`NormalVolumeMax` on the step that reaches it and on each of the following steps up to step
number `max B 1` (that is, on `B - 1` further steps when `B ≥ 1`), and report
`NormalVolumeMax + 1` on the next step. -/
theorem plusSteps64_hysteresis (vs : volumeSettings) (vp : volumePlugin)
    (hbs : 0 ≤ vs.BufferSize) (hb1 : vs.BufferSize + 1 < 2 ^ 63)
    (hnm : 0 ≤ vs.NormalVolumeMax) (hom : vs.NormalVolumeMax < vs.OverMaxVolumeMax)
    (hmax : vs.OverMaxVolumeMax < 2 ^ 63)
    (hcur : vp.currentVolume = vs.NormalVolumeMax - 1)
    (hnb0 : -(2 ^ 63) ≤ vp.normalBuffer) (hnb1 : vp.normalBuffer < 2 ^ 63) :
    (∀ k : Nat, 1 ≤ k → (k : Int) ≤ max vs.BufferSize 1 →
      (plusSteps64 vs vp k).currentVolume = vs.NormalVolumeMax) ∧
    (plusSteps64 vs vp ((max vs.BufferSize 1).toNat + 1)).currentVolume =
      vs.NormalVolumeMax + 1 := by
  have h := plusSteps_held_then_released vs vp hbs hnm hom hcur
  have e := plusSteps64_eq vs vp hbs hb1 hnm hom hmax hcur hnb0 hnb1
  refine ⟨fun k h1 h2 => ?_, ?_⟩
  · rw [e k (by omega)]
    exact h.1 k h1 h2
  · rw [e _ (by omega)]
    exact h.2

/-- The bound on `BufferSize` is needed: with `BufferSize = 9223372036854775807` the buffer is
never armed, and four successive `+1` steps from 99 report 100, 101, 102, 103. -/
theorem plusSteps64_at_max_bufferSize :
    [1, 2, 3, 4].map (fun k => (plusSteps64 maxBufferSettings (pluginAt 99 0) k).currentVolume)
      = [100, 101, 102, 103] := by
  decide

theorem plusSteps64_hysteresis_witness :
    ((0 : Int) ≤ exampleSettings.BufferSize ∧ exampleSettings.BufferSize + 1 < 2 ^ 63 ∧
      0 ≤ exampleSettings.NormalVolumeMax ∧
      exampleSettings.NormalVolumeMax < exampleSettings.OverMaxVolumeMax ∧
      exampleSettings.OverMaxVolumeMax < 2 ^ 63 ∧
      (pluginAt 99 0).currentVolume = exampleSettings.NormalVolumeMax - 1 ∧
      -(2 ^ 63) ≤ (pluginAt 99 0).normalBuffer ∧ (pluginAt 99 0).normalBuffer < 2 ^ 63) ∧
    (∀ k : Nat, 1 ≤ k → (k : Int) ≤ max exampleSettings.BufferSize 1 →
      (plusSteps64 exampleSettings (pluginAt 99 0) k).currentVolume =
        exampleSettings.NormalVolumeMax) ∧
    (plusSteps64 exampleSettings (pluginAt 99 0)
      ((max exampleSettings.BufferSize 1).toNat + 1)).currentVolume =
      exampleSettings.NormalVolumeMax + 1 :=
  ⟨by decide, plusSteps64_hysteresis exampleSettings (pluginAt 99 0) (by decide) (by decide)
    (by decide) (by decide) (by decide) (by decide) (by decide) (by decide)⟩

/-- C6 (as the code behaves): for a relative step with `delta ≠ 0` whose `delta` and whose
target `currentVolume + delta` are within the range of a 64-bit `int` (settings with
`OverMaxVolumeMax ≥ 0`), if `currentVolume + delta < 0` the result is `0` and if
`currentVolume + delta > OverMaxVolumeMax` the result is `OverMaxVolumeMax`; in both cases the
stored `normalBuffer` after the step is `0`: the buffer is cleared before the clamp. -/
theorem calcNewVolume64_clamps_and_clears (vs : volumeSettings) (vp : volumePlugin)
    (direction stepSize : Int)
    (hdlo : -(2 ^ 63) ≤ direction * stepSize) (hdhi : direction * stepSize < 2 ^ 63)
    (hlo : -(2 ^ 63) ≤ vp.currentVolume + direction * stepSize)
    (hhi : vp.currentVolume + direction * stepSize < 2 ^ 63)
    (hom : 0 ≤ vs.OverMaxVolumeMax) (hdelta : direction * stepSize ≠ 0) :
    (vp.currentVolume + direction * stepSize < 0 →
      (calcNewVolume64 vs vp direction stepSize).1 = 0 ∧
      (calcNewVolume64 vs vp direction stepSize).2.normalBuffer = 0) ∧
    (vp.currentVolume + direction * stepSize > vs.OverMaxVolumeMax →
      (calcNewVolume64 vs vp direction stepSize).1 = vs.OverMaxVolumeMax ∧
      (calcNewVolume64 vs vp direction stepSize).2.normalBuffer = 0) := by
  have e1 : wrap64 (direction * stepSize) = direction * stepSize := wrap64_eq _ hdlo hdhi
  have e2 : wrap64 (vp.currentVolume + direction * stepSize) =
      vp.currentVolume + direction * stepSize := wrap64_eq _ hlo hhi
  unfold calcNewVolume64
  simp only [e1, e2]
  refine ⟨fun h => ?_, fun h => ?_⟩
  · rw [if_neg hdelta, if_pos h]
    exact ⟨rfl, rfl⟩
  · rw [if_neg hdelta, if_neg (by omega), if_pos h]
    exact ⟨rfl, rfl⟩

theorem calcNewVolume64_clamps_and_clears_witness :
    (-(2 ^ 63) ≤ (1 : Int) * 999 ∧ (1 : Int) * 999 < 2 ^ 63 ∧
      -(2 ^ 63) ≤ (pluginAt 100 2).currentVolume + 1 * 999 ∧
      (pluginAt 100 2).currentVolume + 1 * 999 < 2 ^ 63 ∧
      (0 : Int) ≤ exampleSettings.OverMaxVolumeMax ∧ (1 : Int) * 999 ≠ 0) ∧
    ((pluginAt 100 2).currentVolume + 1 * 999 < 0 →
      (calcNewVolume64 exampleSettings (pluginAt 100 2) 1 999).1 = 0 ∧
      (calcNewVolume64 exampleSettings (pluginAt 100 2) 1 999).2.normalBuffer = 0) ∧
    ((pluginAt 100 2).currentVolume + 1 * 999 > exampleSettings.OverMaxVolumeMax →
      (calcNewVolume64 exampleSettings (pluginAt 100 2) 1 999).1 =
        exampleSettings.OverMaxVolumeMax ∧
      (calcNewVolume64 exampleSettings (pluginAt 100 2) 1 999).2.normalBuffer = 0) :=
  ⟨by decide, calcNewVolume64_clamps_and_clears exampleSettings (pluginAt 100 2) 1 999
    (by decide) (by decide) (by decide) (by decide) (by decide) (by decide)⟩

/-- A relative step with 64-bit arithmetic never moves the volume against its own direction or
further than requested when `currentVolume + m` and `BufferSize + 1` fit a 64-bit `int`: under
settings with `1 ≤ NormalVolumeMax ≤ OverMaxVolumeMax` and `BufferSize ≥ 0`, in every
reachable state and for every magnitude `m ≥ 0`, a `+m` step returns a volume `v` with
`currentVolume ≤ v ≤ currentVolume + m` and a `-m` step returns a volume `v` with
`currentVolume - m ≤ v ≤ currentVolume`. -/
theorem calcNewVolume64_within_request (vs : volumeSettings) (vp : volumePlugin) (m : Int)
    (hnm : 1 ≤ vs.NormalVolumeMax) (hom : vs.NormalVolumeMax ≤ vs.OverMaxVolumeMax)
    (hbs : 0 ≤ vs.BufferSize) (hb1 : vs.BufferSize + 1 < 2 ^ 63)
    (hreach : Reachable vs vp) (hm : 0 ≤ m) (hfit : vp.currentVolume + m < 2 ^ 63) :
    (vp.currentVolume ≤ (calcNewVolume64 vs vp 1 m).1 ∧
      (calcNewVolume64 vs vp 1 m).1 ≤ vp.currentVolume + m) ∧
    (vp.currentVolume - m ≤ (calcNewVolume64 vs vp (-1) m).1 ∧
      (calcNewVolume64 vs vp (-1) m).1 ≤ vp.currentVolume) := by
  obtain ⟨a, _, i1, _, _, i4, i5, _⟩ := Reachable_Inv hnm hom hbs hreach
  rw [calcNewVolume64_eq_of_fits vs vp 1 m (Or.inl rfl) hm (by omega) hfit hbs hb1 (by omega)
      (by omega),
    calcNewVolume64_eq_of_fits vs vp (-1) m (Or.inr rfl) hm (by omega) hfit hbs hb1 (by omega)
      (by omega)]
  exact calcNewVolume_within_request vs vp m hnm hom hbs hreach hm

/-- C19, an input on which the code does not do what the claim says: with
`OverMaxVolumeMax = 9223372036854775807` and `DefaultVolume = 9223372036854775807` in the
settings file and a shell that fails, the first call of `exec` leaves
`currentVolume = 9223372036854775807` with an empty buffer, a reachable state; there the sum
`currentVolume + 1` of a `+1` step wraps to `-2^63`, the guard `curVolume + delta < 0` holds,
and the step returns 0, a volume below `currentVolume`. -/
theorem calcNewVolume64_plus_one_at_max_volume :
    (maxVolumeSettings.NormalVolumeMax = 100 ∧ maxVolumeSettings.BufferSize = 5 ∧
      maxVolumeSettings.OverMaxVolumeMax = 9223372036854775807 ∧
      maxVolumeSettings.DefaultVolume = 9223372036854775807) ∧
    ((exec (maxVolumeEnv none)
        { vs := volumeSettings.zero, vp := globalVP, ran := [], pushed := [] }).2.vs =
        maxVolumeSettings ∧
      (exec (maxVolumeEnv none)
        { vs := volumeSettings.zero, vp := globalVP, ran := [], pushed := [] }).2.vp =
        pluginAt 9223372036854775807 0) ∧
    Reachable maxVolumeSettings (pluginAt 9223372036854775807 0) ∧
    wrap64 ((pluginAt 9223372036854775807 0).currentVolume + wrap64 (1 * 1)) =
      -9223372036854775808 ∧
    calcNewVolume64 maxVolumeSettings (pluginAt 9223372036854775807 0) 1 1 =
      (0, pluginAt 9223372036854775807 0) ∧
    ¬ (pluginAt 9223372036854775807 0).currentVolume ≤
      (calcNewVolume64 maxVolumeSettings (pluginAt 9223372036854775807 0) 1 1).1 :=
  ⟨by decide, by decide, Reachable.init _ rfl rfl (by decide) (by decide), by decide,
    by decide, by decide⟩

end plugin_volume

namespace script_server

/-- C16: `processRequest` validates the secret key before anything else. If the `SecretKey`
query value is missing or differs from the configured secret key, the result is
`Invalid secret key` whatever commands are registered, and the state is untouched: no command
function is looked up or invoked. When the key matches, the result is `Missing Command` if
no `Command` value is given, `Invalid Command` if the name is not registered, and otherwise
what the registered command function returns. -/
theorem processRequest_checks_key_first {σ : Type} (secretKey : String)
    (items : String → Option ((String → Option String) → σ → String × σ))
    (getQueryVal : String → Option String) (st : σ) :
    ((getQueryVal "SecretKey" = none ∨
        ∃ val, getQueryVal "SecretKey" = some val ∧ val ≠ secretKey) →
      ∀ items1 : String → Option ((String → Option String) → σ → String × σ),
        processRequest secretKey items1 getQueryVal st = ("Invalid secret key", st)) ∧
    (getQueryVal "SecretKey" = some secretKey →
      (getQueryVal "Command" = none →
        processRequest secretKey items getQueryVal st = ("Missing Command", st)) ∧
      (∀ command, getQueryVal "Command" = some command → items command = none →
        processRequest secretKey items getQueryVal st = ("Invalid Command", st)) ∧
      (∀ command cmdFunc, getQueryVal "Command" = some command →
        items command = some cmdFunc →
        processRequest secretKey items getQueryVal st = cmdFunc getQueryVal st)) := by
  refine ⟨fun hkey items1 => ?_, fun hkey => ⟨fun hc => ?_, fun command hc hi => ?_,
    fun command cmdFunc hc hi => ?_⟩⟩
  · unfold processRequest
    rcases hkey with h | ⟨val, h, hne⟩
    · rw [h]
    · rw [h]
      simp only [ne_eq, hne, not_false_eq_true, if_true]
  · unfold processRequest
    rw [hkey, hc]
    simp
  · unfold processRequest commands.Get
    rw [hkey, hc]
    simp [hi]
  · unfold processRequest commands.Get
    rw [hkey, hc]
    simp [hi]

/-- Instances of `processRequest` on the example registry: a wrong key and a missing key are
refused without calling `Echo`, the right key reaches it. -/
theorem processRequest_examples :
    processRequest "s3cret" exampleItems (exampleQuery (some "guess") (some "Echo") "hi") 0 =
      ("Invalid secret key", 0) ∧
    processRequest "s3cret" exampleItems (exampleQuery none (some "Echo") "hi") 0 =
      ("Invalid secret key", 0) ∧
    processRequest "s3cret" exampleItems (exampleQuery (some "s3cret") none "hi") 0 =
      ("Missing Command", 0) ∧
    processRequest "s3cret" exampleItems (exampleQuery (some "s3cret") (some "Beep") "hi") 0 =
      ("Invalid Command", 0) ∧
    processRequest "s3cret" exampleItems (exampleQuery (some "s3cret") (some "Echo") "hi") 0 =
      ("hi", 1) := by
  decide

end script_server
